import Mathlib

/-!
SpacePong: a shallow embedding of the simulation core

The development follows `static/js/game.js`, `static/js/particles.js` and
`static/js/starfield.js`.

Modelling conventions.

* A JavaScript number is a rational (`ℚ`), and the arithmetic of the physics
  step is exact: `0.02` is `1/50`, `-1.1` is `-11/10`.
* The frame clock of `gameLoop` is modelled in IEEE binary64: `1000/60` is the
  double `16.666666666666668`, and every sum and difference of the clock is
  rounded to the nearest double, ties to even (`Double.nearest`).  Infinities
  and NaN are not represented.  `ballMovementRounded` gives the same treatment
  to the two sums of the ball movement.
* The canvas is an `HTMLCanvasElement`: it stores its width and height as
  unsigned integers (`canvasDimension`).
* `Math.random()` reads the head of a stream `Rng = ℕ → ℚ` of future draws and
  advances it; the stream is carried in the state.
* Effects on the host (the synthesizer, the score labels, the win banner) are
  returned as a list of `Event`s, in the order the code performs them.
* Drawing (`draw`) and `requestAnimationFrame` do not touch the simulation
  state and are left out.
-/

namespace SpacePong

/-! ## Random draws -/

/-- The stream of results that successive calls of `Math.random()` return. -/
abbrev Rng := ℕ → ℚ

/-- The stream after `k` calls of `Math.random()`. -/
def Rng.drop (k : ℕ) (r : Rng) : Rng := fun n => r (n + k)

/-- Every draw lies in `[0, 1)`, as `Math.random()` promises. -/
def Rng.InUnit (r : Rng) : Prop := ∀ n, 0 ≤ r n ∧ r n < 1

/-! ## IEEE binary64 rounding -/

namespace Double

/-- The binade of `x`: `floor (log2 |x|)`, and `-1022` in the subnormal range. -/
def exponent (x : ℚ) : ℤ := max (Int.log 2 |x|) (-1022)

/-- The spacing of the doubles in the binade of `x`. -/
def ulp (x : ℚ) : ℚ := (2 : ℚ) ^ (exponent x - 52)

/-- The integer nearest to `q`, the even one of the two when `q` is half way. -/
def nearestEven (q : ℚ) : ℤ :=
  if q - ⌊q⌋ < 1/2 then ⌊q⌋
  else if 1/2 < q - ⌊q⌋ then ⌊q⌋ + 1
  else if ⌊q⌋ % 2 = 0 then ⌊q⌋ else ⌊q⌋ + 1

/-- Round to nearest, ties to even. -/
def nearest (x : ℚ) : ℚ := nearestEven (x / ulp x) * ulp x

end Double

/-! ## particles.js -/

/-- One entry of `ParticleSystem.particles`. -/
structure Particle where
  x : ℚ
  y : ℚ
  vx : ℚ
  vy : ℚ
  size : ℚ
  color : String
  life : ℚ
deriving DecidableEq

namespace ParticleSystem

/-- The object literal pushed by one iteration of `createParticles`; the three
draws are taken in the order `vx`, `vy`, `size`. -/
def newParticle (x y : ℚ) (color : String) (r : Rng) : Particle :=
  { x := x
    y := y
    vx := (r 0 - 1/2) * 10
    vy := (r 1 - 1/2) * 10
    size := r 2 * 3 + 1
    color := color
    life := 1 }

/-- `ParticleSystem.createParticles(x, y, color, count)`: the loop
`for (let i = 0; i < count; i++) this.particles.push({...})`, run on the
current array and the current random stream. -/
def createParticles (x y : ℚ) (color : String) :
    ℕ → List Particle → Rng → List Particle × Rng
  | 0, ps, r => (ps, r)
  | n + 1, ps, r =>
      createParticles x y color n (ps ++ [newParticle x y color r]) (r.drop 3)

/-- The body of the loop of `ParticleSystem.update` up to the test:
`p.x += p.vx; p.y += p.vy; p.life -= 0.02`. -/
def stepParticle (p : Particle) : Particle :=
  { p with x := p.x + p.vx, y := p.y + p.vy, life := p.life - 1/50 }

/-- The loop `for (let i = length - 1; i >= 0; i--)` of
`ParticleSystem.update`; the first argument is `i + 1`.  The array cell `i` is
overwritten with the advanced particle and, when its life is `<= 0`, removed by
`splice(i, 1)`. -/
def updateLoop : (n : ℕ) → (ps : List Particle) → n ≤ ps.length → List Particle
  | 0, ps, _ => ps
  | i + 1, ps, h =>
      let p := stepParticle (ps.get ⟨i, h⟩)
      if hl : p.life ≤ 0 then
        updateLoop i ((ps.set i p).eraseIdx i)
          (by rw [List.length_eraseIdx, List.length_set]; split <;> omega)
      else
        updateLoop i (ps.set i p) (by rw [List.length_set]; omega)

/-- `ParticleSystem.update()`. -/
def update (ps : List Particle) : List Particle :=
  updateLoop ps.length ps le_rfl

end ParticleSystem

/-! ## starfield.js -/

/-- One entry of `Starfield.stars`. -/
structure Star where
  x : ℚ
  y : ℚ
  size : ℚ
  speed : ℚ
deriving DecidableEq

namespace Starfield

/-- `Starfield.update()` on a canvas of width `W` and height `H`: the
`forEach` visits the stars in order; a star that has left the canvas on the
left is put back at `x = W` with `y = Math.random() * H`. -/
def update (W H : ℚ) : List Star → Rng → List Star × Rng
  | [], r => ([], r)
  | s :: rest, r =>
      if s.x - s.speed < 0 then
        let out := update W H rest (r.drop 1)
        ({ s with x := W, y := r 0 * H } :: out.1, out.2)
      else
        let out := update W H rest r
        ({ s with x := s.x - s.speed } :: out.1, out.2)

end Starfield

/-! ## game.js -/

/-- The objects `paddle1` and `paddle2`. -/
structure Paddle where
  x : ℚ
  y : ℚ
  width : ℚ
  height : ℚ
  speed : ℚ
deriving DecidableEq

/-- The object `ball`. -/
structure Ball where
  x : ℚ
  y : ℚ
  size : ℚ
  speedX : ℚ
  speedY : ℚ
deriving DecidableEq

/-- The object `score`. -/
structure Score where
  player1 : ℚ
  player2 : ℚ
deriving DecidableEq

/-- What a physics step does to the host page. -/
inductive Event where
  /-- The call `synth.triggerAttackRelease(note, '32n')`. -/
  | tone (note : String)
  /-- The write `getElementById('player1Score').textContent = value`. -/
  | player1Score (value : ℚ)
  /-- The write `getElementById('player2Score').textContent = value`. -/
  | player2Score (value : ℚ)
  /-- The call `getElementById('winMessage').classList.remove('hidden')`. -/
  | winMessage
deriving DecidableEq

/-- The fields of a `Game` object that the simulation reads or writes,
together with the random stream of the host. -/
structure Game where
  canvasWidth : ℚ
  canvasHeight : ℚ
  paddle1 : Paddle
  paddle2 : Paddle
  ball : Ball
  particles : List Particle
  stars : List Star
  score : Score
  winningScore : ℚ
  isPaused : Bool
  keys : String → Bool
  lastPausePress : ℚ
  lastTime : ℚ
  accumulator : ℚ
  timestep : ℚ
  random : Rng

namespace Game

/-- The speed chosen by `if (keys[up]) -8 else if (keys[down]) 8 else 0`. -/
def keySpeed (up down : Bool) : ℚ :=
  if up then -8 else if down then 8 else 0

/-- Lines 86-92 of `update`: both paddle speeds are assigned from the keys. -/
def paddleMovement (g : Game) : Game :=
  { g with
    paddle1 := { g.paddle1 with speed := keySpeed (g.keys "w") (g.keys "s") }
    paddle2 := { g.paddle2 with
                 speed := keySpeed (g.keys "ArrowUp") (g.keys "ArrowDown") } }

/-- Lines 95-96 of `update`: `paddle.y += paddle.speed`. -/
def updatePaddlePositions (g : Game) : Game :=
  { g with
    paddle1 := { g.paddle1 with y := g.paddle1.y + g.paddle1.speed }
    paddle2 := { g.paddle2 with y := g.paddle2.y + g.paddle2.speed } }

/-- The expression
`Math.max(p.height/2, Math.min(canvas.height - p.height/2, p.y))`. -/
def constrain (H : ℚ) (p : Paddle) : Paddle :=
  { p with y := max (p.height / 2) (min (H - p.height / 2) p.y) }

/-- Lines 99-100 of `update`. -/
def constrainPaddles (g : Game) : Game :=
  { g with
    paddle1 := constrain g.canvasHeight g.paddle1
    paddle2 := constrain g.canvasHeight g.paddle2 }

/-- Lines 103-104 of `update`: the ball moves by its velocity. -/
def ballMovement (g : Game) : Game :=
  { g with
    ball := { g.ball with x := g.ball.x + g.ball.speedX
                          y := g.ball.y + g.ball.speedY } }

/-- The test of line 107: the ball touches the top or the bottom. -/
def hitsWall (g : Game) : Bool :=
  decide (g.ball.y ≤ g.ball.size) || decide (g.ball.y ≥ g.canvasHeight - g.ball.size)

/-- Lines 107-111 of `update`. -/
def wallCollision (g : Game) : Game × List Event :=
  if hitsWall g then
    let out := ParticleSystem.createParticles g.ball.x g.ball.y "0, 255, 255" 10
      g.particles g.random
    ({ g with ball := { g.ball with speedY := g.ball.speedY * -1 }
              particles := out.1
              random := out.2 },
     [Event.tone "C4"])
  else (g, [])

/-- `Game.checkPaddleCollision(paddle)`. -/
def checkPaddleCollision (g : Game) (paddle : Paddle) : Bool :=
  decide (g.ball.x + g.ball.size > paddle.x - paddle.width / 2) &&
  decide (g.ball.x - g.ball.size < paddle.x + paddle.width / 2) &&
  decide (g.ball.y + g.ball.size > paddle.y - paddle.height / 2) &&
  decide (g.ball.y - g.ball.size < paddle.y + paddle.height / 2)

/-- Lines 114-118 of `update`. -/
def paddleCollision (g : Game) : Game × List Event :=
  if checkPaddleCollision g g.paddle1 || checkPaddleCollision g g.paddle2 then
    let out := ParticleSystem.createParticles g.ball.x g.ball.y "0, 255, 255" 20
      g.particles g.random
    ({ g with ball := { g.ball with speedX := g.ball.speedX * (-11/10) }
              particles := out.1
              random := out.2 },
     [Event.tone "E4"])
  else (g, [])

/-- `Game.resetBall()`: two draws, the first for the direction, the second for
the vertical speed, then the two score labels are rewritten. -/
def resetBall (g : Game) : Game × List Event :=
  ({ g with ball := { g.ball with x := g.canvasWidth / 2
                                  y := g.canvasHeight / 2
                                  speedX := if g.random 0 > 1/2 then 5 else -5
                                  speedY := g.random 1 * 6 - 3 }
            random := g.random.drop 2 },
   [Event.player1Score g.score.player1, Event.player2Score g.score.player2])

/-- Lines 121-127 of `update`. -/
def scorePoints (g : Game) : Game × List Event :=
  if g.ball.x < 0 then
    resetBall { g with score := { g.score with player2 := g.score.player2 + 1 } }
  else if g.ball.x > g.canvasWidth then
    resetBall { g with score := { g.score with player1 := g.score.player1 + 1 } }
  else (g, [])

/-- Lines 130-132 of `update`. -/
def checkWinner (g : Game) : List Event :=
  if g.score.player1 ≥ g.winningScore ∨ g.score.player2 ≥ g.winningScore then
    [Event.winMessage]
  else []

/-- Lines 135-136 of `update`: the particles, then the stars. -/
def updateEffects (g : Game) : Game :=
  let out := Starfield.update g.canvasWidth g.canvasHeight g.stars g.random
  { g with particles := ParticleSystem.update g.particles
           stars := out.1
           random := out.2 }

/-- The state in which the collisions of a step are tested: speeds assigned,
paddles moved and clamped, ball moved. -/
def moved (g : Game) : Game :=
  ballMovement (constrainPaddles (updatePaddlePositions (paddleMovement g)))

/-- `Game.update()`: one physics step, with the events it emits. -/
def update (g : Game) : Game × List Event :=
  if g.isPaused then (g, [])
  else
    let w := wallCollision (moved g)
    let c := paddleCollision w.1
    let s := scorePoints c.1
    (updateEffects s.1, w.2 ++ c.2 ++ s.2 ++ checkWinner s.1)

/-- Lines 218-222 of `gameLoop`: the clock is seeded on the first frame
(`!this.lastTime` holds exactly when `lastTime` is `0`), the delta is taken and
added to the accumulator.  The difference and the sum are doubles. -/
def frameStart (currentTime : ℚ) (g : Game) : Game :=
  { g with
    lastTime := currentTime
    accumulator := Double.nearest (g.accumulator +
      Double.nearest (currentTime - (if g.lastTime = 0 then currentTime else g.lastTime))) }

/-- The body of the loop of `gameLoop`: `this.update(); this.accumulator -=
this.timestep`.  The difference is a double. -/
def frameStep (g : Game) : Game :=
  { (update g).1 with
    accumulator := Double.nearest ((update g).1.accumulator - (update g).1.timestep) }

/-- The loop `while (accumulator >= timestep) { update(); accumulator -= timestep }`
with a bound on the number of iterations; the result carries the events and
the number of calls of `update`.  `none` means the bound was reached. -/
def consume : ℕ → Game → Option (Game × List Event × ℕ)
  | 0, _ => none
  | fuel + 1, g =>
      if g.accumulator ≥ g.timestep then
        match consume fuel (frameStep g) with
        | none => none
        | some (g', es, n) => some (g', (update g).2 ++ es, n + 1)
      else some (g, [], 0)

/-- `Game.gameLoop(currentTime)` up to the call of `draw`. -/
def gameLoop (fuel : ℕ) (currentTime : ℚ) (g : Game) : Option (Game × List Event × ℕ) :=
  consume fuel (frameStart currentTime g)

/-- Lines 103-104 of `update` in doubles: each sum is rounded to the nearest
double. -/
def ballMovementRounded (g : Game) : Game :=
  { g with
    ball := { g.ball with x := Double.nearest (g.ball.x + g.ball.speedX)
                          y := Double.nearest (g.ball.y + g.ball.speedY) } }

end Game

/-! ## The constructor and the event handlers of game.js -/

namespace Starfield

/-- `Starfield.initStars()` on a canvas of width `W` and height `H`; the first
argument is the number of iterations left (200 at the call).  Each star takes
four draws, in the order `x`, `y`, `size`, `speed`. -/
def initStars (W H : ℚ) : ℕ → List Star → Rng → List Star × Rng
  | 0, stars, r => (stars, r)
  | n + 1, stars, r =>
      initStars W H n
        (stars ++ [{ x := r 0 * W, y := r 1 * H, size := r 2 * 2 + 1,
                     speed := r 3 * (1/2) + 1/10 }])
        (r.drop 4)

end Starfield

namespace Game

/-- Lines 11-65 of the constructor, on a canvas that has been given width `W`
and height `H`: the paddles, the ball, the empty particle system, the 200
stars, the score, the flags and the clock. -/
def init (W H : ℚ) (random : Rng) : Game :=
  { canvasWidth := W
    canvasHeight := H
    paddle1 := { x := 30, y := H / 2, width := 10, height := 100, speed := 0 }
    paddle2 := { x := W - 30, y := H / 2, width := 10, height := 100, speed := 0 }
    ball := { x := W / 2, y := H / 2, size := 10, speedX := 5, speedY := 5 }
    particles := []
    stars := (Starfield.initStars W H 200 [] random).1
    score := { player1 := 0, player2 := 0 }
    winningScore := 5
    isPaused := false
    keys := fun _ => false
    lastPausePress := 0
    lastTime := 0
    accumulator := 0
    timestep := Double.nearest (1000 / 60)
    random := (Starfield.initStars W H 200 [] random).2 }

/-- The number an `HTMLCanvasElement` holds after `canvas.width = v` or
`canvas.height = v`.  The attribute is an `unsigned long`: `v` is truncated
towards zero and reduced modulo `2^32`, and a result above `2147483647` is
replaced by the attribute's default (`300` for the width, `150` for the
height). -/
def canvasDimension (dflt v : ℚ) : ℚ :=
  if (if 0 ≤ v then ⌊v⌋ else ⌈v⌉) % 4294967296 ≤ 2147483647 then
    (((if 0 ≤ v then ⌊v⌋ else ⌈v⌉) % 4294967296 : ℤ) : ℚ)
  else dflt

/-- The constructor `new Game()` in a window of the given `innerWidth`: lines
7-8 assign the canvas its width and then its height, computed from the width
the canvas holds; the rest is `init` on the size the canvas holds. -/
def new (innerWidth : ℚ) (random : Rng) : Game :=
  init (canvasDimension 300 (min 800 (innerWidth - 20)))
    (canvasDimension 150 (canvasDimension 300 (min 800 (innerWidth - 20)) * (6/10))) random

/-- `Game.resize()` in a window of the given `innerWidth`: the canvas is
assigned its width, then its height computed from the width it holds, and the
right paddle is placed from the width it holds. -/
def resize (innerWidth : ℚ) (g : Game) : Game :=
  { g with
    canvasWidth := canvasDimension 300 (min 800 (innerWidth - 20))
    canvasHeight :=
      canvasDimension 150 (canvasDimension 300 (min 800 (innerWidth - 20)) * (6/10))
    paddle2 := { g.paddle2 with x := canvasDimension 300 (min 800 (innerWidth - 20)) - 30 }
    paddle1 := { g.paddle1 with x := 30 } }

/-- The `keydown` listener of lines 48-58 for the key `key`, with `now` the
value of `Date.now()`. -/
def keydown (key : String) (now : ℚ) (g : Game) : Game :=
  let g1 := { g with keys := fun k => if k = key then true else g.keys k }
  if key = "p" ∨ key = "P" then
    if now - g1.lastPausePress > 200 then
      { g1 with isPaused := !g1.isPaused, lastPausePress := now }
    else g1
  else g1

/-- The `keyup` listener of line 59. -/
def keyup (key : String) (g : Game) : Game :=
  { g with keys := fun k => if k = key then false else g.keys k }

end Game

/-! ## Sample states -/

/-- A game on the full-size canvas (800 by 480) with the paddles at rest in
the middle, no key held, score 0-0, two stars, every draw equal to `1/2`, and
the ball at `(px, py)` with velocity `(sx, sy)`. -/
def sampleAt (px py sx sy : ℚ) : Game :=
  { canvasWidth := 800
    canvasHeight := 480
    paddle1 := { x := 30, y := 240, width := 10, height := 100, speed := 0 }
    paddle2 := { x := 770, y := 240, width := 10, height := 100, speed := 0 }
    ball := { x := px, y := py, size := 10, speedX := sx, speedY := sy }
    particles := []
    stars := [{ x := 100, y := 50, size := 2, speed := 1/2 },
              { x := 1/4, y := 70, size := 1, speed := 1/2 }]
    score := { player1 := 0, player2 := 0 }
    winningScore := 5
    isPaused := false
    keys := fun _ => false
    lastPausePress := 0
    lastTime := 0
    accumulator := 0
    timestep := Double.nearest (1000 / 60)
    random := fun _ => 1/2 }

/-- The state of `sampleAt` with the left paddle resting against the top of
the surface (`y = 50`). -/
def sampleTop (px py sx sy : ℚ) : Game :=
  { sampleAt px py sx sy with
    paddle1 := { x := 30, y := 50, width := 10, height := 100, speed := 0 } }

/-- The state of `sampleAt` with the pause flag set. -/
def samplePaused (px py sx sy : ℚ) : Game :=
  { sampleAt px py sx sy with isPaused := true }

/-- The state the constructor builds in a window with `innerWidth = 120`: the
canvas is 100 by 60, shorter than a paddle. -/
def sampleShort : Game :=
  { sampleAt 50 30 5 5 with
    canvasWidth := 100
    canvasHeight := 60
    paddle1 := { x := 30, y := 30, width := 10, height := 100, speed := 0 }
    paddle2 := { x := 70, y := 30, width := 10, height := 100, speed := 0 } }

/-- A game in a window with `innerWidth = 60`: the canvas is 40 by 24, the
paddles stand at `x = 30` and `x = 40 - 30`, and the ball is about to leave on
the right while it overlaps the left paddle. -/
def sampleNarrow : Game :=
  { sampleAt 38 12 5 0 with
    canvasWidth := 40
    canvasHeight := 24
    paddle1 := { x := 30, y := 50, width := 10, height := 100, speed := 0 }
    paddle2 := { x := 10, y := 50, width := 10, height := 100, speed := 0 } }

/-- The state of `sampleAt` on a later frame: the previous frame was at time
`100` and left nothing in the accumulator. -/
def sampleClock : Game :=
  { sampleAt 400 240 5 5 with lastTime := 100, accumulator := 0 }

/-- The state of `sampleAt` on a later frame, the previous frame at time
`1024`. -/
def sampleLate : Game :=
  { sampleAt 400 240 5 5 with lastTime := 1024, accumulator := 0 }

/-- A game on the 232 by 139 canvas (window `innerWidth = 252`), one step after
the ball has bounced off the bottom band `y >= 129`: the ball is in the band at
`y = 131.70454545454544` with `speedY = -2.7045454545454533`, moving up.  The
values are the doubles a run from the constructor reaches after 317 steps when
the first `resetBall` draws `0.9507575757575755` for the vertical speed. -/
def sampleTrap : Game :=
  { sampleAt 85 (2316970866531607 / 2 ^ 44) (11/2) (-(190315467207773 / 2 ^ 46)) with
    canvasWidth := 232
    canvasHeight := 139
    paddle1 := { x := 30, y := 139 / 2, width := 10, height := 100, speed := 0 }
    paddle2 := { x := 202, y := 139 / 2, width := 10, height := 100, speed := 0 } }

/-- The state of `sampleAt` with player 1 at the winning score. -/
def sampleWon : Game :=
  { sampleAt 400 240 5 5 with score := { player1 := 5, player2 := 3 } }

/-- A particle half way through its life. -/
def sampleParticle : Particle :=
  { x := 0, y := 0, vx := 1, vy := 1, size := 2, color := "0, 255, 255", life := 1/2 }

/-- A game in a window with `innerWidth = 80`: the canvas is 60 by 36, so both
paddles stand at `x = 30 = 60 - 30`, and the ball is about to overlap both. -/
def sampleDouble : Game :=
  { sampleAt 45 18 (-5) 0 with
    canvasWidth := 60
    canvasHeight := 36
    paddle1 := { x := 30, y := 50, width := 10, height := 100, speed := 0 }
    paddle2 := { x := 30, y := 50, width := 10, height := 100, speed := 0 } }

/-- The state of `sampleAt` on the first frame: the clock fields are as the
constructor leaves them. -/
def sampleFirst : Game := sampleAt 400 240 5 5

/-! ## The particle step as the specification words it -/

namespace ParticleSystem

/-- One particle advanced once, as the specification words it: moved by its
velocity, life decremented by the per-step decay `0.02`, everything else as it
was. -/
def advanceSpec (p : Particle) : Particle :=
  { x := p.x + p.vx
    y := p.y + p.vy
    vx := p.vx
    vy := p.vy
    size := p.size
    color := p.color
    life := p.life - 1/50 }

/-- The particle step as the specification words it: every particle is
advanced once, then those whose life is still positive are kept, in order. -/
def updateSpec (ps : List Particle) : List Particle :=
  (ps.map advanceSpec).filter (fun p => decide (0 < p.life))

end ParticleSystem

/-! ## Properties stated by the claims -/

namespace Game

/-- The paddle test of line 114 as the step of `g` evaluates it: on the ball
after integration and the paddles after clamping. -/
def collides (g : Game) : Bool :=
  checkPaddleCollision (moved g) (moved g).paddle1 ||
  checkPaddleCollision (moved g) (moved g).paddle2

/-- The wall test of line 107 as the step of `g` evaluates it: on the ball
after integration. -/
def bounces (g : Game) : Bool := hitsWall (moved g)

/-- The number of draws the two collision blocks of the step of `g` take
before the scoring block runs: 30 for a wall bounce (10 particles), 60 for a
paddle hit (20 particles). -/
def drawsBefore (g : Game) : ℕ :=
  (if bounces g then 30 else 0) + (if collides g then 60 else 0)

/-- No point is scored in the step of `g`: the ball's x after integration is
within `[0, canvasWidth]`. -/
def StaysInPlay (g : Game) : Prop :=
  0 ≤ g.ball.x + g.ball.speedX ∧ g.ball.x + g.ball.speedX ≤ g.canvasWidth

end Game


/-- How `Starfield.update` on a `W` by `H` canvas with the draws `r` relates a
star `s` to the star `s'` that takes its place: size and speed are kept; a star
that stays on the canvas (`x - speed >= 0`) moves left by its speed and keeps
its `y`; a star that has left it (`x - speed < 0`) is put at `x = W` with
`y = d * H` for a draw `d` of the stream, so `y` is in `[0, H)`. -/
def StarStep (W H : ℚ) (r : Rng) (s s' : Star) : Prop :=
  s'.size = s.size ∧ s'.speed = s.speed ∧
  (0 ≤ s.x - s.speed → s'.x = s.x - s.speed ∧ s'.y = s.y) ∧
  (s.x - s.speed < 0 → s'.x = W ∧ ∃ k, s'.y = r k * H ∧ 0 ≤ s'.y ∧ s'.y < H)

/-- What happens to a game between two observations: a physics step, a resize
of the window, a key going down at some time, a key going up. -/
inductive Action where
  | step
  | resized (innerWidth : ℚ)
  | keyDown (key : String) (now : ℚ)
  | keyUp (key : String)
deriving DecidableEq

/-- The action is not a resize. -/
def Action.keepsSurface : Action → Bool
  | Action.resized _ => false
  | _ => true

namespace Game

/-- The events of the first `n` iterations of the loop of `gameLoop` started
in `g`. -/
def frameEvents : ℕ → Game → List Event
  | 0, _ => []
  | n + 1, g => (update g).2 ++ frameEvents n (frameStep g)

/-- A scoring step: the ball's x after integration is outside `[0, W]`. -/
def scores (g : Game) : Bool :=
  decide (g.ball.x + g.ball.speedX < 0) || decide (g.ball.x + g.ball.speedX > g.canvasWidth)

/-- The state after one action. -/
def act : Action → Game → Game
  | Action.step, g => (update g).1
  | Action.resized w, g => resize w g
  | Action.keyDown key now, g => keydown key now g
  | Action.keyUp key, g => keyup key g

/-- The state after a sequence of actions, the first of the list first. -/
def run : List Action → Game → Game
  | [], g => g
  | a :: rest, g => run rest (act a g)

/-- The number of paddle-collision steps since the last ball reset, after one
more action: a scoring step sets it to `0`, a non-scoring step with a paddle
collision adds one, anything else (a paused step included) keeps it. -/
def hitsAfter (a : Action) (g : Game) (k : ℕ) : ℕ :=
  match a with
  | Action.step =>
      if g.isPaused then k else if scores g then 0 else if collides g then k + 1 else k
  | _ => k

/-- The number of paddle-collision steps since the last ball reset at the end
of a sequence of actions that starts in `g` with `k` of them. -/
def rallyHits : List Action → Game → ℕ → ℕ
  | [], _, k => k
  | a :: rest, g, k => rallyHits rest (act a g) (hitsAfter a g k)

/-- The invariant behind the field bounds on a `W` by `H` surface with a ball
of size 10 and draws in `[0, 1)`: the ball's x is in `[0, W]`, its vertical
speed in `[-5, 5]`, and its y is either strictly between the two wall zones, or
in the top zone `(5, 10]` moving down towards a point strictly between the
zones, or in the bottom zone `[H - 10, H - 5)` moving up towards such a
point. -/
def InField (W H : ℚ) (g : Game) : Prop :=
  g.canvasWidth = W ∧ g.canvasHeight = H ∧ g.ball.size = 10 ∧ g.random.InUnit ∧
  (0 ≤ g.ball.x ∧ g.ball.x ≤ W) ∧ (-5 ≤ g.ball.speedY ∧ g.ball.speedY ≤ 5) ∧
  ((10 < g.ball.y ∧ g.ball.y < H - 10) ∨
   (5 < g.ball.y ∧ g.ball.y ≤ 10 ∧ 0 < g.ball.speedY ∧
     10 < g.ball.y + g.ball.speedY ∧ g.ball.y + g.ball.speedY < H - 10) ∨
   (H - 10 ≤ g.ball.y ∧ g.ball.y < H - 5 ∧ g.ball.speedY < 0 ∧
     10 < g.ball.y + g.ball.speedY ∧ g.ball.y + g.ball.speedY < H - 10))

end Game

/-- The ball of `g'` is where `resetBall` puts it: at the centre of the
surface, with horizontal speed `5` or `-5` and vertical speed `6 r - 3` for one
of the draws `r` of the stream of `g`, which is in `[-3, 3)` when `r` is in
`[0, 1)`. -/
def BallReset (g g' : Game) : Prop :=
  g'.ball.x = g.canvasWidth / 2 ∧ g'.ball.y = g.canvasHeight / 2 ∧
  (g'.ball.speedX = 5 ∨ g'.ball.speedX = -5) ∧
  ∃ k, g'.ball.speedY = 6 * g.random k - 3 ∧
    (0 ≤ g.random k ∧ g.random k < 1 → -3 ≤ g'.ball.speedY ∧ g'.ball.speedY < 3)

/-! ## Lemmas on the rounding to the nearest double -/

namespace Double

theorem ulp_pos (x : ℚ) : 0 < ulp x := zpow_pos (by norm_num) _

theorem exponent_eq (x : ℚ) (e : ℤ) (he : -1022 ≤ e) (hlo : (2 : ℚ) ^ e ≤ |x|)
    (hhi : |x| < (2 : ℚ) ^ (e + 1)) : exponent x = e := by
  have hpos : 0 < |x| := lt_of_lt_of_le (zpow_pos (by norm_num) _) hlo
  have h1 : e ≤ Int.log 2 |x| := (Int.zpow_le_iff_le_log (by norm_num) hpos).mp (by exact_mod_cast hlo)
  have h2 : Int.log 2 |x| < e + 1 := (Int.lt_zpow_iff_log_lt (by norm_num) hpos).mp (by exact_mod_cast hhi)
  unfold exponent
  rw [max_eq_left (by omega)]
  omega

theorem nearestEven_le (q : ℚ) : (nearestEven q : ℚ) ≤ q + 1/2 := by
  have h1 := Int.floor_le q
  have h2 := Int.lt_floor_add_one q
  unfold nearestEven
  split_ifs with a b c
  · linarith
  · push_cast; linarith
  · linarith
  · push_cast
    have : q - ⌊q⌋ = 1/2 := le_antisymm (not_lt.mp b) (not_lt.mp a)
    linarith

theorem nearestEven_nonneg (q : ℚ) (h : 0 ≤ q) : 0 ≤ nearestEven q := by
  have h0 : 0 ≤ ⌊q⌋ := Int.floor_nonneg.mpr h
  unfold nearestEven
  split_ifs <;> omega

theorem nearest_nonneg (x : ℚ) (h : 0 ≤ x) : 0 ≤ nearest x := by
  unfold nearest
  have := nearestEven_nonneg (x / ulp x) (div_nonneg h (ulp_pos x).le)
  exact mul_nonneg (by exact_mod_cast this) (ulp_pos x).le

theorem nearest_le (x : ℚ) : nearest x ≤ x + ulp x / 2 := by
  unfold nearest
  have h := nearestEven_le (x / ulp x)
  have hu := ulp_pos x
  calc (nearestEven (x / ulp x) : ℚ) * ulp x ≤ (x / ulp x + 1/2) * ulp x :=
        mul_le_mul_of_nonneg_right h hu.le
    _ = x + ulp x / 2 := by field_simp; ring

theorem nearest_zero : nearest 0 = 0 := by
  simp [nearest, nearestEven]

/-- Evaluation of `nearest` at a number whose binade and neighbours are known. -/
theorem nearest_eval (x : ℚ) (e f m : ℤ) (he : -1022 ≤ e) (hlo : (2 : ℚ) ^ e ≤ |x|)
    (hhi : |x| < (2 : ℚ) ^ (e + 1)) (hf : (f : ℚ) ≤ x / (2 : ℚ) ^ (e - 52))
    (hf' : x / (2 : ℚ) ^ (e - 52) < f + 1)
    (hm : (x / (2 : ℚ) ^ (e - 52) - f < 1/2 ∧ m = f) ∨
      (1/2 < x / (2 : ℚ) ^ (e - 52) - f ∧ m = f + 1) ∨
      (x / (2 : ℚ) ^ (e - 52) - f = 1/2 ∧ f % 2 = 0 ∧ m = f) ∨
      (x / (2 : ℚ) ^ (e - 52) - f = 1/2 ∧ f % 2 = 1 ∧ m = f + 1)) :
    nearest x = m * (2 : ℚ) ^ (e - 52) := by
  have hu : ulp x = (2 : ℚ) ^ (e - 52) := by
    unfold ulp
    rw [exponent_eq x e he hlo hhi]
  have hfl : ⌊x / (2 : ℚ) ^ (e - 52)⌋ = f := Int.floor_eq_iff.mpr ⟨hf, hf'⟩
  unfold nearest
  rw [hu]
  congr 1
  unfold nearestEven
  rw [hfl]
  rcases hm with ⟨h, rfl⟩ | ⟨h, rfl⟩ | ⟨h, h2, rfl⟩ | ⟨h, h2, rfl⟩
  · rw [if_pos h]
  · rw [if_neg (by linarith), if_pos h]
  · rw [if_neg (by linarith), if_neg (by linarith), if_pos h2]
  · rw [if_neg (by linarith), if_neg (by linarith), if_neg (by omega)]

/-- The double `1000/60`. -/
theorem nearest_timestep : nearest (1000 / 60) = 4691249611844267 / 2 ^ 48 := by
  rw [nearest_eval (1000 / 60) 4 4691249611844266 4691249611844267 (by norm_num)
    (by norm_num [abs_of_pos]) (by norm_num [abs_of_pos]) (by norm_num) (by norm_num)
    (Or.inr (Or.inl ⟨by norm_num, by norm_num⟩))]
  norm_num

theorem ulp_le_sixteen (x : ℚ) (h : |x| < 2 ^ 57) : ulp x ≤ 16 := by
  have he : exponent x ≤ 56 := by
    unfold exponent
    apply max_le _ (by norm_num)
    by_cases hx : 0 < |x|
    · have : Int.log 2 |x| < 57 :=
        (Int.lt_zpow_iff_log_lt (by norm_num) hx).mp (by exact_mod_cast h)
      omega
    · rw [Int.log_of_right_le_zero 2 (not_lt.mp hx)]
      norm_num
  unfold ulp
  calc (2 : ℚ) ^ (exponent x - 52) ≤ (2 : ℚ) ^ (4 : ℤ) :=
        zpow_le_zpow_right₀ (by norm_num) (by omega)
    _ = 16 := by norm_num

/-- Every result of `nearest` is an integer multiple of the smallest positive
double `2^(-1074)`. -/
theorem nearest_grid (x : ℚ) : ∃ k : ℤ, nearest x = k * (2 : ℚ) ^ (-1074 : ℤ) := by
  have he : -1022 ≤ exponent x := le_max_right _ _
  obtain ⟨n, hn⟩ : ∃ n : ℕ, exponent x - 52 = (n : ℤ) + (-1074) :=
    ⟨(exponent x + 1022).toNat, by omega⟩
  refine ⟨nearestEven (x / ulp x) * 2 ^ n, ?_⟩
  unfold nearest
  have : ulp x = (2 : ℚ) ^ n * (2 : ℚ) ^ (-1074 : ℤ) := by
    unfold ulp
    rw [hn, zpow_add₀ (by norm_num), zpow_natCast]
  rw [this]
  push_cast
  ring

theorem nearest_fifty : nearest 50 = 50 := by
  rw [nearest_eval 50 5 7036874417766400 7036874417766400 (by norm_num)
    (by norm_num [abs_of_pos]) (by norm_num [abs_of_pos]) (by norm_num) (by norm_num)
    (Or.inl ⟨by norm_num, rfl⟩)]
  norm_num

theorem nearest_fifty_sub : nearest (50 - 4691249611844267 / 2 ^ 48)
    = 4691249611844266 / 2 ^ 47 := by
  rw [nearest_eval (50 - 4691249611844267 / 2 ^ 48) 5 4691249611844266 4691249611844266
    (by norm_num) (by norm_num [abs_of_pos]) (by norm_num [abs_of_pos]) (by norm_num)
    (by norm_num) (Or.inr (Or.inr (Or.inl ⟨by norm_num, by norm_num, rfl⟩)))]
  norm_num

theorem nearest_fifty_sub_sub :
    nearest (4691249611844266 / 2 ^ 47 - 4691249611844267 / 2 ^ 48)
      = 4691249611844265 / 2 ^ 48 := by
  rw [nearest_eval (4691249611844266 / 2 ^ 47 - 4691249611844267 / 2 ^ 48) 4
    4691249611844265 4691249611844265
    (by norm_num) (by norm_num [abs_of_pos]) (by norm_num [abs_of_pos]) (by norm_num)
    (by norm_num) (Or.inl ⟨by norm_num, rfl⟩)]
  norm_num

theorem nearest_big : nearest 300000000000000000 = 300000000000000000 := by
  rw [nearest_eval 300000000000000000 58 4687500000000000 4687500000000000
    (by norm_num) (by norm_num [abs_of_pos]) (by norm_num [abs_of_pos]) (by norm_num)
    (by norm_num) (Or.inl ⟨by norm_num, rfl⟩)]
  norm_num

theorem nearest_big_sub : nearest (300000000000000000 - 4691249611844267 / 2 ^ 48)
    = 300000000000000000 := by
  rw [nearest_eval (300000000000000000 - 4691249611844267 / 2 ^ 48) 58
    4687499999999999 4687500000000000
    (by norm_num) (by norm_num [abs_of_pos]) (by norm_num [abs_of_pos]) (by norm_num)
    (by norm_num) (Or.inr (Or.inl ⟨by norm_num, by norm_num⟩))]
  norm_num

theorem nearest_frame : nearest (5/2 * (4691249611844267 / 2 ^ 48))
    = 5864062014805334 / 2 ^ 47 := by
  rw [nearest_eval (5/2 * (4691249611844267 / 2 ^ 48)) 5 5864062014805333 5864062014805334
    (by norm_num) (by norm_num [abs_of_pos]) (by norm_num [abs_of_pos]) (by norm_num)
    (by norm_num) (Or.inr (Or.inl ⟨by norm_num, by norm_num⟩))]
  norm_num

theorem nearest_frame_self : nearest (5864062014805334 / 2 ^ 47) = 5864062014805334 / 2 ^ 47 := by
  rw [nearest_eval (5864062014805334 / 2 ^ 47) 5 5864062014805334 5864062014805334
    (by norm_num) (by norm_num [abs_of_pos]) (by norm_num [abs_of_pos]) (by norm_num)
    (by norm_num) (Or.inl ⟨by norm_num, rfl⟩)]
  norm_num

theorem nearest_frame_sub : nearest (5864062014805334 / 2 ^ 47 - 4691249611844267 / 2 ^ 48)
    = 7036874417766401 / 2 ^ 48 := by
  rw [nearest_eval (5864062014805334 / 2 ^ 47 - 4691249611844267 / 2 ^ 48) 4
    7036874417766401 7036874417766401
    (by norm_num) (by norm_num [abs_of_pos]) (by norm_num [abs_of_pos]) (by norm_num)
    (by norm_num) (Or.inl ⟨by norm_num, rfl⟩)]
  norm_num

theorem nearest_frame_sub_sub :
    nearest (7036874417766401 / 2 ^ 48 - 4691249611844267 / 2 ^ 48)
      = 4691249611844268 / 2 ^ 49 := by
  rw [nearest_eval (7036874417766401 / 2 ^ 48 - 4691249611844267 / 2 ^ 48) 3
    4691249611844268 4691249611844268
    (by norm_num) (by norm_num [abs_of_pos]) (by norm_num [abs_of_pos]) (by norm_num)
    (by norm_num) (Or.inl ⟨by norm_num, rfl⟩)]
  norm_num

theorem nearest_trap_up :
    nearest (2316970866531607 / 2 ^ 44 + -(190315467207773 / 2 ^ 46)) = 129 := by
  rw [nearest_eval (2316970866531607 / 2 ^ 44 + -(190315467207773 / 2 ^ 46)) 7
    4538783999459327 4538783999459328
    (by norm_num) (by norm_num [abs_of_pos]) (by norm_num [abs_of_pos]) (by norm_num)
    (by norm_num) (Or.inr (Or.inr (Or.inr ⟨by norm_num, by norm_num, by norm_num⟩)))]
  norm_num

theorem nearest_trap_down :
    nearest (129 + 190315467207773 / 2 ^ 46) = 2316970866531607 / 2 ^ 44 := by
  rw [nearest_eval (129 + 190315467207773 / 2 ^ 46) 7
    4633941733063214 4633941733063214
    (by norm_num) (by norm_num [abs_of_pos]) (by norm_num [abs_of_pos]) (by norm_num)
    (by norm_num) (Or.inr (Or.inr (Or.inl ⟨by norm_num, by norm_num, rfl⟩)))]
  norm_num

end Double

/-! ## Lemmas on the random stream and on `createParticles` -/

theorem Rng.drop_apply (k n : ℕ) (r : Rng) : r.drop k n = r (n + k) := rfl

theorem Rng.drop_drop (j k : ℕ) (r : Rng) : (r.drop j).drop k = r.drop (j + k) := by
  funext n; simp [Rng.drop, Nat.add_assoc, Nat.add_comm k j]

theorem Rng.drop_zero (r : Rng) : r.drop 0 = r := rfl

theorem Rng.InUnit.drop {r : Rng} (h : r.InUnit) (k : ℕ) : (r.drop k).InUnit :=
  fun n => h (n + k)

namespace ParticleSystem

theorem createParticles_snd (x y : ℚ) (c : String) (n : ℕ) (ps : List Particle) (r : Rng) :
    (createParticles x y c n ps r).2 = r.drop (3 * n) := by
  induction n generalizing ps r with
  | zero => rfl
  | succ n ih =>
      rw [createParticles, ih, Rng.drop_drop, show 3 + 3 * n = 3 * (n + 1) by omega]

end ParticleSystem

namespace ParticleSystem

theorem createParticles_fst (x y : ℚ) (c : String) (n : ℕ) (ps : List Particle) (r : Rng) :
    (createParticles x y c n ps r).1 =
      ps ++ (List.range n).map (fun i => newParticle x y c (r.drop (3 * i))) := by
  induction n generalizing ps r with
  | zero => simp [createParticles]
  | succ n ih =>
      rw [createParticles, ih, List.range_succ_eq_map, List.map_cons, List.map_map,
        List.append_assoc, List.singleton_append]
      congr 2

theorem stepParticle_eq_advanceSpec (p : Particle) : stepParticle p = advanceSpec p := rfl

/-- The loop invariant of `update`: when the index has come down to
`l₁.length`, the cells above it hold what the specification keeps of them. -/
theorem updateLoop_append (n : ℕ) : ∀ (l₁ l₂ : List Particle) (h : n ≤ (l₁ ++ l₂).length),
    l₁.length = n → updateLoop n (l₁ ++ l₂) h = updateSpec l₁ ++ l₂ := by
  induction n with
  | zero =>
      intro l₁ l₂ h hl
      rw [List.length_eq_zero] at hl
      subst hl
      simp [updateLoop, updateSpec]
  | succ n ih =>
      intro l₁ l₂ h hl
      obtain ⟨l, a, rfl⟩ : ∃ l a, l₁ = l ++ [a] := by
        rcases List.eq_nil_or_concat l₁ with h0 | ⟨l, a, h1⟩
        · rw [h0] at hl; simp at hl
        · exact ⟨l, a, by simpa using h1⟩
      have hn : l.length = n := by simpa using hl
      subst hn
      have hget : (l ++ [a] ++ l₂).get ⟨l.length, h⟩ = a := by
        simp [List.getElem_append_left, List.getElem_append_right]
      have hset : (l ++ [a] ++ l₂).set l.length (stepParticle a)
          = l ++ (stepParticle a :: l₂) := by
        simp [List.set_append]
      have hers : (l ++ (stepParticle a :: l₂)).eraseIdx l.length = l ++ l₂ := by
        rw [List.eraseIdx_append_of_length_le (le_refl _)]
        simp
      unfold updateLoop
      simp only [hget, hset, hers]
      split_ifs with hlife
      · rw [ih l l₂ _ rfl]
        simp [updateSpec, List.filter_append, ← stepParticle_eq_advanceSpec, not_lt.mpr hlife]
      · rw [ih l (stepParticle a :: l₂) _ rfl]
        simp [updateSpec, List.filter_append, ← stepParticle_eq_advanceSpec, not_le.mp hlife]

theorem update_eq_updateSpec (ps : List Particle) : update ps = updateSpec ps := by
  have := updateLoop_append ps.length ps [] (by simp) rfl
  simpa [update] using this

end ParticleSystem

namespace Game

/-! ### The stages of `update` -/

@[simp] theorem moved_ball_x (g : Game) : (moved g).ball.x = g.ball.x + g.ball.speedX := rfl
@[simp] theorem moved_ball_y (g : Game) : (moved g).ball.y = g.ball.y + g.ball.speedY := rfl
@[simp] theorem moved_ball_speedX (g : Game) : (moved g).ball.speedX = g.ball.speedX := rfl
@[simp] theorem moved_ball_speedY (g : Game) : (moved g).ball.speedY = g.ball.speedY := rfl
@[simp] theorem moved_ball_size (g : Game) : (moved g).ball.size = g.ball.size := rfl
@[simp] theorem moved_score (g : Game) : (moved g).score = g.score := rfl
@[simp] theorem moved_canvasWidth (g : Game) : (moved g).canvasWidth = g.canvasWidth := rfl
@[simp] theorem moved_canvasHeight (g : Game) : (moved g).canvasHeight = g.canvasHeight := rfl
@[simp] theorem moved_winningScore (g : Game) : (moved g).winningScore = g.winningScore := rfl
@[simp] theorem moved_random (g : Game) : (moved g).random = g.random := rfl

/-- The draws consumed by the two collision blocks leave a suffix of the
stream. -/
theorem collisions_random (g : Game) :
    ∃ k, (paddleCollision (wallCollision g).1).1.random = g.random.drop k := by
  unfold paddleCollision wallCollision
  split_ifs
  · exact ⟨90, by simp [ParticleSystem.createParticles_snd, Rng.drop_drop]⟩
  · exact ⟨30, by simp [ParticleSystem.createParticles_snd]⟩
  · exact ⟨60, by simp [ParticleSystem.createParticles_snd]⟩
  · exact ⟨0, rfl⟩

theorem collisions_ball_x (g : Game) :
    (paddleCollision (wallCollision g).1).1.ball.x = g.ball.x := by
  unfold paddleCollision wallCollision
  split_ifs <;> rfl

theorem collisions_score (g : Game) :
    (paddleCollision (wallCollision g).1).1.score = g.score := by
  unfold paddleCollision wallCollision
  split_ifs <;> rfl

theorem collisions_canvasWidth (g : Game) :
    (paddleCollision (wallCollision g).1).1.canvasWidth = g.canvasWidth := by
  unfold paddleCollision wallCollision
  split_ifs <;> rfl

theorem collisions_canvasHeight (g : Game) :
    (paddleCollision (wallCollision g).1).1.canvasHeight = g.canvasHeight := by
  unfold paddleCollision wallCollision
  split_ifs <;> rfl

/-- What `resetBall` leaves, read against the state `g0` whose stream the
state `g` continues. -/
theorem resetBall_spec (g0 g : Game) (hW : g.canvasWidth = g0.canvasWidth)
    (hH : g.canvasHeight = g0.canvasHeight) (hr : ∃ k, g.random = g0.random.drop k) :
    BallReset g0 (updateEffects (resetBall g).1) := by
  obtain ⟨k, hk⟩ := hr
  refine ⟨by simp [updateEffects, resetBall, hW], by simp [updateEffects, resetBall, hH], ?_, ?_⟩
  · simp only [updateEffects, resetBall]
    split_ifs
    · exact Or.inl rfl
    · exact Or.inr rfl
  · refine ⟨1 + k, ?_, ?_⟩
    · simp [updateEffects, resetBall, hk, Rng.drop_apply]; ring
    · intro h
      simp only [updateEffects, resetBall, hk, Rng.drop_apply]
      constructor <;> linarith [h.1, h.2]

/-- C1. Scoring in a non-paused step, with `x'` the ball's x after the
position integration and `W` the surface width: if `x' < 0`, player 2 gains
exactly one point and player 1 keeps its score; otherwise, if `x' > W`,
player 1 gains exactly one point and player 2 keeps its score; otherwise both
counters are unchanged.  In both scoring cases the ball ends the step at the
surface centre with `speedX` equal to `5` or `-5` and `speedY = 6 r - 3`, in
`[-3, 3)`, for a random draw `r` in `[0, 1)`. -/
theorem update_scoring (g : Game) (hp : g.isPaused = false) :
    (g.ball.x + g.ball.speedX < 0 →
      (update g).1.score.player2 = g.score.player2 + 1 ∧
      (update g).1.score.player1 = g.score.player1 ∧ BallReset g (update g).1) ∧
    (¬ g.ball.x + g.ball.speedX < 0 → g.ball.x + g.ball.speedX > g.canvasWidth →
      (update g).1.score.player1 = g.score.player1 + 1 ∧
      (update g).1.score.player2 = g.score.player2 ∧ BallReset g (update g).1) ∧
    (0 ≤ g.ball.x + g.ball.speedX → g.ball.x + g.ball.speedX ≤ g.canvasWidth →
      (update g).1.score = g.score) := by
  have hx := collisions_ball_x (moved g)
  have hs := collisions_score (moved g)
  have hW := collisions_canvasWidth (moved g)
  have hH := collisions_canvasHeight (moved g)
  have hr := collisions_random (moved g)
  simp only [moved_ball_x, moved_score, moved_canvasWidth, moved_canvasHeight,
    moved_random] at hx hs hW hH hr
  refine ⟨fun h => ?_, fun h1 h2 => ?_, fun h1 h2 => ?_⟩
  · have e : (update g).1 = updateEffects (resetBall
        { (paddleCollision (wallCollision (moved g)).1).1 with
          score := { (paddleCollision (wallCollision (moved g)).1).1.score with
            player2 := (paddleCollision (wallCollision (moved g)).1).1.score.player2 + 1 } }).1 := by
      simp [update, hp, scorePoints, hx, h]
    rw [e]
    refine ⟨by simp [updateEffects, resetBall, hs], by simp [updateEffects, resetBall, hs], ?_⟩
    exact resetBall_spec g _ hW hH hr
  · have e : (update g).1 = updateEffects (resetBall
        { (paddleCollision (wallCollision (moved g)).1).1 with
          score := { (paddleCollision (wallCollision (moved g)).1).1.score with
            player1 := (paddleCollision (wallCollision (moved g)).1).1.score.player1 + 1 } }).1 := by
      simp [update, hp, scorePoints, hx, h1, hW, h2]
    rw [e]
    refine ⟨by simp [updateEffects, resetBall, hs], by simp [updateEffects, resetBall, hs], ?_⟩
    exact resetBall_spec g _ hW hH hr
  · have e : (update g).1 = updateEffects (paddleCollision (wallCollision (moved g)).1).1 := by
      simp [update, hp, scorePoints, hx, hW, not_lt.mpr h1, not_lt.mpr h2]
    rw [e]
    simpa [updateEffects] using hs

/-- Witness for `update_scoring`: the ball at `x = 3` moving left at speed `5`
leaves the surface and player 2 scores. -/
theorem update_scoring_witness :
    (sampleAt 3 240 (-5) 2).isPaused = false ∧
    (sampleAt 3 240 (-5) 2).ball.x + (sampleAt 3 240 (-5) 2).ball.speedX < 0 ∧
    (update (sampleAt 3 240 (-5) 2)).1.score.player2 = 1 ∧
    (update (sampleAt 3 240 (-5) 2)).1.score.player1 = 0 ∧
    BallReset (sampleAt 3 240 (-5) 2) (update (sampleAt 3 240 (-5) 2)).1 := by
  have hx : (sampleAt 3 240 (-5) 2).ball.x + (sampleAt 3 240 (-5) 2).ball.speedX < 0 := by
    norm_num [sampleAt]
  have h := (update_scoring (sampleAt 3 240 (-5) 2) rfl).1 hx
  refine ⟨rfl, hx, ?_, ?_, h.2.2⟩
  · simpa [sampleAt] using h.1
  · simpa [sampleAt] using h.2.1

/-! ### C2: the paddle clamp -/

theorem update_paddle1 (g : Game) (hp : g.isPaused = false) :
    (update g).1.paddle1 = (moved g).paddle1 := by
  simp only [update, hp, Bool.false_eq_true, if_false, updateEffects, scorePoints, resetBall,
    paddleCollision, wallCollision]
  split_ifs <;> rfl

theorem update_paddle2 (g : Game) (hp : g.isPaused = false) :
    (update g).1.paddle2 = (moved g).paddle2 := by
  simp only [update, hp, Bool.false_eq_true, if_false, updateEffects, scorePoints, resetBall,
    paddleCollision, wallCollision]
  split_ifs <;> rfl

theorem moved_paddle1_y (g : Game) :
    (moved g).paddle1.y = max (g.paddle1.height / 2)
      (min (g.canvasHeight - g.paddle1.height / 2)
        (g.paddle1.y + keySpeed (g.keys "w") (g.keys "s"))) := rfl

theorem moved_paddle2_y (g : Game) :
    (moved g).paddle2.y = max (g.paddle2.height / 2)
      (min (g.canvasHeight - g.paddle2.height / 2)
        (g.paddle2.y + keySpeed (g.keys "ArrowUp") (g.keys "ArrowDown"))) := rfl

/-- C2, as the code has it. After a non-paused step, whatever the surface
height, the paddle's y before the step and the keys, each paddle's centre y is
at least `height / 2`; it is at most `surfaceHeight - height / 2` when the
surface is at least as high as the paddle (`height <= surfaceHeight`). -/
theorem update_paddle_clamp (g : Game) (hp : g.isPaused = false) :
    (g.paddle1.height / 2 ≤ (update g).1.paddle1.y ∧
      g.paddle2.height / 2 ≤ (update g).1.paddle2.y) ∧
    (g.paddle1.height ≤ g.canvasHeight →
      (update g).1.paddle1.y ≤ g.canvasHeight - g.paddle1.height / 2) ∧
    (g.paddle2.height ≤ g.canvasHeight →
      (update g).1.paddle2.y ≤ g.canvasHeight - g.paddle2.height / 2) := by
  rw [update_paddle1 g hp, update_paddle2 g hp, moved_paddle1_y, moved_paddle2_y]
  refine ⟨⟨le_max_left _ _, le_max_left _ _⟩, fun h => ?_, fun h => ?_⟩
  · exact max_le (by linarith) (min_le_left _ _)
  · exact max_le (by linarith) (min_le_left _ _)

/-- Witness for `update_paddle_clamp` on the full-size surface. -/
theorem update_paddle_clamp_witness :
    (sampleAt 400 240 5 5).isPaused = false ∧
    (50 ≤ (update (sampleAt 400 240 5 5)).1.paddle1.y ∧
      50 ≤ (update (sampleAt 400 240 5 5)).1.paddle2.y) ∧
    (update (sampleAt 400 240 5 5)).1.paddle1.y ≤ 430 ∧
    (update (sampleAt 400 240 5 5)).1.paddle2.y ≤ 430 := by
  have h := update_paddle_clamp (sampleAt 400 240 5 5) rfl
  have e1 : (sampleAt 400 240 5 5).paddle1.height = 100 := rfl
  have e2 : (sampleAt 400 240 5 5).paddle2.height = 100 := rfl
  have e3 : (sampleAt 400 240 5 5).canvasHeight = 480 := rfl
  rw [e1, e2, e3] at h
  norm_num at h
  exact ⟨rfl, h.1, h.2.1, h.2.2⟩

/-- C2 as stated fails on a surface lower than the paddle: on the 100 by 60
canvas the paddle of height 100 ends the step at `y = 50`, above the claimed
upper bound `60 - 100 / 2 = 10`. -/
theorem update_paddle_clamp_counterexample :
    sampleShort.isPaused = false ∧ sampleShort.paddle1.height = 100 ∧
    sampleShort.canvasHeight = 60 ∧
    (update sampleShort).1.paddle1.y = 50 ∧
    ¬ ((update sampleShort).1.paddle1.y
        ≤ sampleShort.canvasHeight - sampleShort.paddle1.height / 2) := by
  have e : (update sampleShort).1.paddle1.y = 50 := by
    rw [update_paddle1 _ rfl, moved_paddle1_y]
    norm_num [sampleShort, sampleAt, keySpeed]
  refine ⟨rfl, rfl, rfl, e, ?_⟩
  rw [e]
  norm_num [sampleShort, sampleAt]

/-! ### C3 and C4: the two collision blocks -/

theorem wallCollision_check (g : Game) (p : Paddle) :
    checkPaddleCollision (wallCollision g).1 p = checkPaddleCollision g p := by
  unfold wallCollision
  split_ifs <;> rfl

theorem wallCollision_paddle1 (g : Game) : (wallCollision g).1.paddle1 = g.paddle1 := by
  unfold wallCollision
  split_ifs <;> rfl

theorem wallCollision_paddle2 (g : Game) : (wallCollision g).1.paddle2 = g.paddle2 := by
  unfold wallCollision
  split_ifs <;> rfl

/-- The ball after a non-paused step in which nobody scores: it has moved by
its velocity, the vertical speed is negated when the wall test holds, and the
horizontal speed is multiplied by `-1.1` when the paddle test holds. -/
theorem update_ball_inPlay (g : Game) (hp : g.isPaused = false) (hs : StaysInPlay g) :
    (update g).1.ball =
      { x := g.ball.x + g.ball.speedX
        y := g.ball.y + g.ball.speedY
        size := g.ball.size
        speedX := if collides g then g.ball.speedX * (-11/10) else g.ball.speedX
        speedY := if bounces g then g.ball.speedY * -1 else g.ball.speedY } := by
  have hx := collisions_ball_x (moved g)
  have hW := collisions_canvasWidth (moved g)
  simp only [moved_ball_x, moved_canvasWidth] at hx hW
  have e : (update g).1 = updateEffects (paddleCollision (wallCollision (moved g)).1).1 := by
    simp [update, hp, scorePoints, hx, hW, not_lt.mpr hs.1, not_lt.mpr hs.2]
  rw [e]
  simp only [updateEffects, paddleCollision, wallCollision_check, wallCollision_paddle1,
    wallCollision_paddle2, collides, bounces]
  by_cases hc : (checkPaddleCollision (moved g) (moved g).paddle1 ||
      checkPaddleCollision (moved g) (moved g).paddle2) = true
  · rw [if_pos hc, if_pos hc]
    unfold wallCollision
    split_ifs <;> rfl
  · rw [if_neg hc, if_neg hc]
    unfold wallCollision
    split_ifs <;> rfl

/-- With the paddles where the constructor and `resize` put them (`x = 30` and
`x = canvasWidth - 30`, width 10), a ball of size 10 and a surface at least 45
wide, a step in which the paddle test holds is not a scoring step. -/
theorem collides_staysInPlay (g : Game) (h1 : g.paddle1.x = 30)
    (h2 : g.paddle2.x = g.canvasWidth - 30) (w1 : g.paddle1.width = 10)
    (w2 : g.paddle2.width = 10) (hb : g.ball.size = 10) (hW : 45 ≤ g.canvasWidth)
    (hc : collides g = true) : StaysInPlay g := by
  have e1 : (moved g).paddle1.x = g.paddle1.x := rfl
  have e2 : (moved g).paddle2.x = g.paddle2.x := rfl
  have e3 : (moved g).paddle1.width = g.paddle1.width := rfl
  have e4 : (moved g).paddle2.width = g.paddle2.width := rfl
  simp only [collides, checkPaddleCollision, Bool.or_eq_true, Bool.and_eq_true,
    decide_eq_true_eq, moved_ball_x, moved_ball_size, e1, e2, e3, e4, h1, h2, w1, w2, hb] at hc
  unfold StaysInPlay
  rcases hc with ⟨⟨⟨a, b⟩, _⟩, _⟩ | ⟨⟨⟨a, b⟩, _⟩, _⟩ <;> constructor <;> linarith

/-- C3, as the code has it. In a non-paused step in which nobody scores (the
ball's x after integration is within `[0, W]`): if `checkPaddleCollision` holds
for at least one paddle, on the ball after integration and the paddles after
clamping, the horizontal velocity at the end of the step is `-1.1` times its
value at the start; if it holds for neither paddle, the horizontal velocity is
unchanged.  With the paddles at `x = 30` and `x = W - 30`, width 10, ball size
10 and `W >= 45`, no step with a paddle collision is a scoring step. -/
theorem update_paddle_hit (g : Game) (hp : g.isPaused = false) :
    (StaysInPlay g → collides g = true →
      (update g).1.ball.speedX = -11/10 * g.ball.speedX) ∧
    (StaysInPlay g → collides g = false → (update g).1.ball.speedX = g.ball.speedX) ∧
    (g.paddle1.x = 30 → g.paddle2.x = g.canvasWidth - 30 → g.paddle1.width = 10 →
      g.paddle2.width = 10 → g.ball.size = 10 → 45 ≤ g.canvasWidth →
      collides g = true → (update g).1.ball.speedX = -11/10 * g.ball.speedX) := by
  have key : StaysInPlay g → collides g = true →
      (update g).1.ball.speedX = -11/10 * g.ball.speedX := by
    intro hs hc
    rw [update_ball_inPlay g hp hs]
    simp only [hc, if_true]
    ring
  refine ⟨key, fun hs hc => ?_, fun h1 h2 w1 w2 hb hW hc => ?_⟩
  · rw [update_ball_inPlay g hp hs]
    simp [hc]
  · exact key (collides_staysInPlay g h1 h2 w1 w2 hb hW hc) hc

/-- Witness for `update_paddle_hit`: the ball reaches the left paddle at
mid-height and leaves with horizontal speed `5.5`. -/
theorem update_paddle_hit_witness :
    (sampleAt 45 240 (-5) 2).isPaused = false ∧ StaysInPlay (sampleAt 45 240 (-5) 2) ∧
    collides (sampleAt 45 240 (-5) 2) = true ∧
    (update (sampleAt 45 240 (-5) 2)).1.ball.speedX = 11/2 := by
  have hs : StaysInPlay (sampleAt 45 240 (-5) 2) := by
    unfold StaysInPlay; norm_num [sampleAt]
  have hc : collides (sampleAt 45 240 (-5) 2) = true := by
    simp only [collides, checkPaddleCollision, moved_ball_x, moved_ball_y, moved_ball_size,
      moved_paddle1_y, moved_paddle2_y]
    norm_num [sampleAt, moved, constrainPaddles, constrain, updatePaddlePositions,
      paddleMovement, ballMovement, keySpeed]
  have h := (update_paddle_hit (sampleAt 45 240 (-5) 2) rfl).1 hs hc
  refine ⟨rfl, hs, hc, ?_⟩
  rw [h]
  norm_num [sampleAt]

/-- C3 as stated fails when the step of the collision is also a scoring step:
on the 40 by 24 surface the ball overlaps the left paddle at `x' = 43 > 40`, so
`resetBall` runs after the collision block and the step ends with
`speedX = -5`, not `-1.1 * 5 = -5.5`. -/
theorem update_paddle_hit_counterexample :
    sampleNarrow.isPaused = false ∧ collides sampleNarrow = true ∧
    sampleNarrow.ball.speedX = 5 ∧ (update sampleNarrow).1.ball.speedX = -5 ∧
    (update sampleNarrow).1.ball.speedX ≠ -11/10 * sampleNarrow.ball.speedX := by
  have hc : collides sampleNarrow = true := by
    simp only [collides, checkPaddleCollision, moved_ball_x, moved_ball_y, moved_ball_size,
      moved_paddle1_y, moved_paddle2_y]
    norm_num [sampleNarrow, sampleAt, moved, constrainPaddles, constrain,
      updatePaddlePositions, paddleMovement, ballMovement, keySpeed]
  have hx : ¬ sampleNarrow.ball.x + sampleNarrow.ball.speedX < 0 := by
    norm_num [sampleNarrow, sampleAt]
  have hW : sampleNarrow.ball.x + sampleNarrow.ball.speedX > sampleNarrow.canvasWidth := by
    norm_num [sampleNarrow, sampleAt]
  have e : (update sampleNarrow).1.ball.speedX = -5 := by
    have hr := collisions_random (moved sampleNarrow)
    obtain ⟨k, hk⟩ := hr
    have hx2 := collisions_ball_x (moved sampleNarrow)
    have hW2 := collisions_canvasWidth (moved sampleNarrow)
    simp only [moved_ball_x, moved_canvasWidth] at hx2 hW2
    have e : (update sampleNarrow).1.ball.speedX =
        if (paddleCollision (wallCollision (moved sampleNarrow)).1).1.random 0 > 1/2
        then 5 else -5 := by
      have hp : sampleNarrow.isPaused = false := rfl
      simp [update, hp, scorePoints, hx2, hW2, hx, hW, updateEffects, resetBall]
    rw [e, hk]
    norm_num [Rng.drop_apply, sampleNarrow, sampleAt]
  refine ⟨rfl, hc, rfl, e, ?_⟩
  rw [e]
  norm_num [sampleNarrow, sampleAt]

theorem bounces_iff (g : Game) :
    bounces g = true ↔ (g.ball.y + g.ball.speedY ≤ g.ball.size ∨
      g.ball.y + g.ball.speedY ≥ g.canvasHeight - g.ball.size) := by
  simp [bounces, hitsWall]

/-- The stream the scoring block reads from. -/
theorem collisions_random_eq (g : Game) :
    (paddleCollision (wallCollision (moved g)).1).1.random = g.random.drop (drawsBefore g) := by
  simp only [paddleCollision, wallCollision_check, wallCollision_paddle1,
    wallCollision_paddle2, drawsBefore, collides, bounces]
  by_cases hc : (checkPaddleCollision (moved g) (moved g).paddle1 ||
      checkPaddleCollision (moved g) (moved g).paddle2) = true
  · rw [if_pos hc, if_pos hc]
    unfold wallCollision
    split_ifs <;> simp [ParticleSystem.createParticles_snd, Rng.drop_drop]
  · rw [if_neg hc, if_neg hc]
    unfold wallCollision
    split_ifs <;> simp [ParticleSystem.createParticles_snd, Rng.drop_zero]

/-- The ball after a non-paused step in which somebody scores: `resetBall` has
put it at the centre, with the direction and the vertical speed drawn after
the draws of the collision blocks. -/
theorem update_ball_scored (g : Game) (hp : g.isPaused = false) (hs : ¬ StaysInPlay g) :
    (update g).1.ball =
      { x := g.canvasWidth / 2
        y := g.canvasHeight / 2
        size := g.ball.size
        speedX := if g.random (drawsBefore g) > 1/2 then 5 else -5
        speedY := g.random (drawsBefore g + 1) * 6 - 3 } := by
  have hx := collisions_ball_x (moved g)
  have hW := collisions_canvasWidth (moved g)
  have hH := collisions_canvasHeight (moved g)
  have hr := collisions_random_eq g
  have hz : (paddleCollision (wallCollision (moved g)).1).1.ball.size = g.ball.size := by
    unfold paddleCollision wallCollision
    split_ifs <;> rfl
  simp only [moved_ball_x, moved_canvasWidth, moved_canvasHeight] at hx hW hH
  have h0 : g.random.drop (drawsBefore g) 0 = g.random (drawsBefore g) := by
    simp [Rng.drop_apply]
  have h1 : g.random.drop (drawsBefore g) 1 = g.random (drawsBefore g + 1) := by
    simp [Rng.drop_apply, Nat.add_comm]
  unfold StaysInPlay at hs
  by_cases hl : g.ball.x + g.ball.speedX < 0
  · simp [update, hp, scorePoints, hx, hl, updateEffects, resetBall, hW, hH, hr, hz, h0, h1]
  · have hg : g.ball.x + g.ball.speedX > g.canvasWidth := by
      by_contra hc
      exact hs ⟨not_lt.mp hl, not_lt.mp hc⟩
    simp [update, hp, scorePoints, hx, hl, hg, updateEffects, resetBall, hW, hH, hr, hz, h0, h1]

/-- C4, as the code has it. In a non-paused step in which nobody scores (the
ball's x after integration is within `[0, W]`) and the ball's y after
integration satisfies `y <= size` or `y >= surfaceHeight - size`, the vertical
velocity at the end of the step is the negation of its value at the start; the
horizontal velocity at the end of the step equals its value at the start when
neither paddle collides in that step, and is `-1.1` times that value when one
does. -/
theorem update_wall_bounce (g : Game) (hp : g.isPaused = false) (hs : StaysInPlay g)
    (hw : g.ball.y + g.ball.speedY ≤ g.ball.size ∨
      g.ball.y + g.ball.speedY ≥ g.canvasHeight - g.ball.size) :
    (update g).1.ball.speedY = -g.ball.speedY ∧
    (collides g = false → (update g).1.ball.speedX = g.ball.speedX) ∧
    (collides g = true → (update g).1.ball.speedX = -11/10 * g.ball.speedX) := by
  have hb : bounces g = true := (bounces_iff g).mpr hw
  rw [update_ball_inPlay g hp hs]
  refine ⟨by simp [hb], fun hc => by simp [hc], fun hc => ?_⟩
  simp only [hc, if_true]
  ring

/-- Witness for `update_wall_bounce`: the ball reaches the top wall in the
middle of the field and leaves with its vertical speed negated. -/
theorem update_wall_bounce_witness :
    (sampleAt 400 14 (-5) (-5)).isPaused = false ∧ StaysInPlay (sampleAt 400 14 (-5) (-5)) ∧
    (sampleAt 400 14 (-5) (-5)).ball.y + (sampleAt 400 14 (-5) (-5)).ball.speedY
      ≤ (sampleAt 400 14 (-5) (-5)).ball.size ∧
    collides (sampleAt 400 14 (-5) (-5)) = false ∧
    (update (sampleAt 400 14 (-5) (-5))).1.ball.speedY = 5 ∧
    (update (sampleAt 400 14 (-5) (-5))).1.ball.speedX = -5 := by
  have hs : StaysInPlay (sampleAt 400 14 (-5) (-5)) := by
    unfold StaysInPlay; norm_num [sampleAt]
  have hw : (sampleAt 400 14 (-5) (-5)).ball.y + (sampleAt 400 14 (-5) (-5)).ball.speedY
      ≤ (sampleAt 400 14 (-5) (-5)).ball.size := by
    norm_num [sampleAt]
  have hc : collides (sampleAt 400 14 (-5) (-5)) = false := by
    simp only [collides, checkPaddleCollision, moved_ball_x, moved_ball_y, moved_ball_size,
      moved_paddle1_y, moved_paddle2_y]
    norm_num [sampleAt, moved, constrainPaddles, constrain, updatePaddlePositions,
      paddleMovement, ballMovement, keySpeed]
  have h := update_wall_bounce (sampleAt 400 14 (-5) (-5)) rfl hs (Or.inl hw)
  refine ⟨rfl, hs, hw, hc, ?_, ?_⟩
  · rw [h.1]; norm_num [sampleAt]
  · rw [h.2.1 hc]; rfl

/-- C4 as stated fails in two ways. With the left paddle against the top, the
ball at `(45, 14)` with velocity `(-5, -5)` touches the top wall and the
paddle in the same step, and its horizontal speed ends at `5.5`, not `-5`.
With the ball at `(3, 14)` and the same velocity, the ball touches the top
wall and leaves the surface on the left in the same step, and `resetBall`
leaves the vertical speed `6 * (1/2) - 3 = 0`, not `5`. -/
theorem update_wall_bounce_counterexample :
    ((sampleTop 45 14 (-5) (-5)).isPaused = false ∧
      bounces (sampleTop 45 14 (-5) (-5)) = true ∧
      (update (sampleTop 45 14 (-5) (-5))).1.ball.speedX = 11/2 ∧
      (update (sampleTop 45 14 (-5) (-5))).1.ball.speedX
        ≠ (sampleTop 45 14 (-5) (-5)).ball.speedX) ∧
    ((sampleAt 3 14 (-5) (-5)).isPaused = false ∧
      bounces (sampleAt 3 14 (-5) (-5)) = true ∧
      (update (sampleAt 3 14 (-5) (-5))).1.ball.speedY = 0 ∧
      (update (sampleAt 3 14 (-5) (-5))).1.ball.speedY
        ≠ -(sampleAt 3 14 (-5) (-5)).ball.speedY) := by
  have hbA : bounces (sampleTop 45 14 (-5) (-5)) = true := by
    rw [bounces_iff]; left; norm_num [sampleTop, sampleAt]
  have hbB : bounces (sampleAt 3 14 (-5) (-5)) = true := by
    rw [bounces_iff]; left; norm_num [sampleAt]
  have hsA : StaysInPlay (sampleTop 45 14 (-5) (-5)) := by
    unfold StaysInPlay; norm_num [sampleTop, sampleAt]
  have hcA : collides (sampleTop 45 14 (-5) (-5)) = true := by
    simp only [collides, checkPaddleCollision, moved_ball_x, moved_ball_y, moved_ball_size,
      moved_paddle1_y, moved_paddle2_y]
    norm_num [sampleTop, sampleAt, moved, constrainPaddles, constrain, updatePaddlePositions,
      paddleMovement, ballMovement, keySpeed]
  have eA : (update (sampleTop 45 14 (-5) (-5))).1.ball.speedX = 11/2 := by
    rw [update_ball_inPlay _ rfl hsA]
    simp only [hcA, if_true]
    norm_num [sampleTop, sampleAt]
  have hsB : ¬ StaysInPlay (sampleAt 3 14 (-5) (-5)) := by
    unfold StaysInPlay; norm_num [sampleAt]
  have eB : (update (sampleAt 3 14 (-5) (-5))).1.ball.speedY = 0 := by
    rw [update_ball_scored _ rfl hsB]
    norm_num [sampleAt]
  refine ⟨⟨rfl, hbA, eA, ?_⟩, ⟨rfl, hbB, eB, ?_⟩⟩
  · rw [eA]; norm_num [sampleTop, sampleAt]
  · rw [eB]; norm_num [sampleAt]

/-! ### C5: the fixed-timestep accumulator -/

theorem update_accumulator (g : Game) : (update g).1.accumulator = g.accumulator := by
  simp only [update, updateEffects, scorePoints, resetBall, paddleCollision, wallCollision]
  split_ifs <;> rfl

theorem update_timestep (g : Game) : (update g).1.timestep = g.timestep := by
  simp only [update, updateEffects, scorePoints, resetBall, paddleCollision, wallCollision]
  split_ifs <;> rfl

theorem frameStep_accumulator (g : Game) :
    (frameStep g).accumulator = Double.nearest (g.accumulator - g.timestep) := by
  show Double.nearest ((update g).1.accumulator - (update g).1.timestep) = _
  rw [update_accumulator, update_timestep]

theorem frameStep_timestep (g : Game) : (frameStep g).timestep = g.timestep :=
  update_timestep g

theorem consume_stop (fuel : ℕ) (g : Game) (h : g.accumulator < g.timestep) :
    consume (fuel + 1) g = some (g, [], 0) := by
  simp only [consume, ge_iff_le, not_le.mpr h, if_false]

theorem consume_step (fuel n : ℕ) (g g' : Game) (es : List Event)
    (h : g.timestep ≤ g.accumulator) (hr : consume fuel (frameStep g) = some (g', es, n)) :
    consume (fuel + 1) g = some (g', (update g).2 ++ es, n + 1) := by
  simp only [consume, ge_iff_le, h, if_true, hr]

/-- The loop of `gameLoop` in doubles, started on an accumulator that is a
double in `[0, 2^57)` with a step above 8: it ends, after a number `n` of
iterations each of which found the accumulator at least the step, and leaves
the accumulator in `[0, step)`. -/
theorem consume_doubles (k : ℕ) : ∀ g : Game, 8 < g.timestep →
    g.accumulator = (k : ℚ) * (2 : ℚ) ^ (-1074 : ℤ) → g.accumulator < 2 ^ 57 →
    ∃ n : ℕ,
      (∀ fuel, n < fuel → consume fuel g = some (frameStep^[n] g, frameEvents n g, n)) ∧
      (∀ i, i < n → g.timestep ≤ (frameStep^[i] g).accumulator) ∧
      0 ≤ (frameStep^[n] g).accumulator ∧ (frameStep^[n] g).accumulator < g.timestep := by
  induction k using Nat.strong_induction_on with
  | _ k ih =>
    intro g hs hk hb
    have hq : (0 : ℚ) < (2 : ℚ) ^ (-1074 : ℤ) := zpow_pos (by norm_num) _
    have h0 : 0 ≤ g.accumulator := by
      rw [hk]
      exact mul_nonneg (Nat.cast_nonneg k) hq.le
    by_cases hge : g.timestep ≤ g.accumulator
    · have hx0 : 0 ≤ g.accumulator - g.timestep := by linarith
      have hxb : |g.accumulator - g.timestep| < 2 ^ 57 := by
        rw [abs_of_nonneg hx0]
        linarith
      have ha1 := frameStep_accumulator g
      have ht1 := frameStep_timestep g
      have hnn : 0 ≤ (frameStep g).accumulator := by
        rw [ha1]
        exact Double.nearest_nonneg _ hx0
      have hlt : (frameStep g).accumulator < g.accumulator := by
        rw [ha1]
        have := Double.nearest_le (g.accumulator - g.timestep)
        have := Double.ulp_le_sixteen _ hxb
        linarith
      obtain ⟨k1, hk1⟩ := Double.nearest_grid (g.accumulator - g.timestep)
      rw [← ha1] at hk1
      have hk1nn : 0 ≤ k1 := by
        by_contra hneg
        have : (k1 : ℚ) < 0 := by exact_mod_cast not_le.mp hneg
        have : (k1 : ℚ) * (2 : ℚ) ^ (-1074 : ℤ) < 0 := mul_neg_of_neg_of_pos this hq
        linarith
      have hk1lt : k1.toNat < k := by
        have h1 : (k1 : ℚ) * (2 : ℚ) ^ (-1074 : ℤ) < (k : ℚ) * (2 : ℚ) ^ (-1074 : ℤ) := by
          rw [← hk1, ← hk]
          exact hlt
        have h2 : (k1 : ℚ) < (k : ℚ) := lt_of_mul_lt_mul_right h1 hq.le
        have h3 : k1 < (k : ℤ) := by exact_mod_cast h2
        omega
      have hk1' : (frameStep g).accumulator = ((k1.toNat : ℕ) : ℚ) * (2 : ℚ) ^ (-1074 : ℤ) := by
        rw [hk1]
        congr 1
        have : ((k1.toNat : ℕ) : ℤ) = k1 := Int.toNat_of_nonneg hk1nn
        exact_mod_cast this.symm
      obtain ⟨n, hrun, hall, hlo, hhi⟩ :=
        ih k1.toNat hk1lt (frameStep g) (by rw [ht1]; exact hs) hk1' (by linarith)
      refine ⟨n + 1, ?_, ?_, ?_, ?_⟩
      · intro fuel hf
        obtain ⟨f, rfl⟩ : ∃ f, fuel = f + 1 := ⟨fuel - 1, by omega⟩
        rw [Function.iterate_succ_apply]
        exact consume_step f n g _ _ hge (hrun f (by omega))
      · intro i hi
        cases i with
        | zero => exact hge
        | succ i =>
            rw [Function.iterate_succ_apply, ← ht1]
            exact hall i (by omega)
      · rw [Function.iterate_succ_apply]
        exact hlo
      · rw [Function.iterate_succ_apply, ← ht1]
        exact hhi
    · refine ⟨0, ?_, ?_, h0, not_le.mp hge⟩
      · intro fuel hf
        obtain ⟨f, rfl⟩ : ∃ f, fuel = f + 1 := ⟨fuel - 1, by omega⟩
        exact consume_stop f g (not_le.mp hge)
      · intro i hi
        exact absurd hi (Nat.not_lt_zero i)

/-- The loop of `gameLoop` when the first two rounded subtractions are known
and the second brings the accumulator below the step: two iterations. -/
theorem consume_two (g : Game) (a1 a2 : ℚ) (fuel : ℕ) (h0 : g.timestep ≤ g.accumulator)
    (e1 : Double.nearest (g.accumulator - g.timestep) = a1) (h1 : g.timestep ≤ a1)
    (e2 : Double.nearest (a1 - g.timestep) = a2) (h2 : a2 < g.timestep) :
    consume (fuel + 3) g = some (frameStep^[2] g, frameEvents 2 g, 2) ∧
    (frameStep^[2] g).accumulator = a2 := by
  have ha1 : (frameStep g).accumulator = a1 := by rw [frameStep_accumulator, e1]
  have ht1 : (frameStep g).timestep = g.timestep := frameStep_timestep g
  have ha2 : (frameStep (frameStep g)).accumulator = a2 := by
    rw [frameStep_accumulator, ha1, ht1, e2]
  have ht2 : (frameStep (frameStep g)).timestep = g.timestep := by
    rw [frameStep_timestep, ht1]
  have s2 : consume (fuel + 1) (frameStep (frameStep g))
      = some (frameStep (frameStep g), [], 0) :=
    consume_stop fuel _ (by rw [ha2, ht2]; exact h2)
  have s1 := consume_step (fuel + 1) 0 (frameStep g) _ _ (by rw [ha1, ht1]; exact h1) s2
  have s0 := consume_step (fuel + 2) 1 g _ _ h0 s1
  exact ⟨s0, ha2⟩

/-- The loop of `gameLoop` on the accumulator `3e17`: the subtraction of the
step is absorbed by the rounding, and no bound on the iterations is enough. -/
theorem consume_absorbed (fuel : ℕ) : ∀ g : Game, g.timestep = Double.nearest (1000 / 60) →
    g.accumulator = 300000000000000000 → consume fuel g = none := by
  induction fuel with
  | zero => intro g _ _; rfl
  | succ f ih =>
      intro g hs ha
      have hge : g.timestep ≤ g.accumulator := by
        rw [hs, ha, Double.nearest_timestep]
        norm_num
      have h1 : (frameStep g).accumulator = 300000000000000000 := by
        rw [frameStep_accumulator, hs, ha, Double.nearest_timestep, Double.nearest_big_sub]
      have h2 : (frameStep g).timestep = Double.nearest (1000 / 60) := by
        rw [frameStep_timestep, hs]
      simp only [consume, ge_iff_le, hge, if_true, ih (frameStep g) h2 h1]

/-- C5, as the code has it, in doubles. On a non-first frame (`lastTime` is
not `0`) with the accumulator `a >= 0` (in particular `a` in `[0, step)`),
`step` the double `1000/60` and `d = currentTime - lastTime >= 0` with
`a + d <= 2^56`, the consumption loop terminates: there is an `n` such that
every bound above `n` on the iterations returns, `update` is called once in
each of the `n` iterations (the final state is the `n`-fold iterate of the loop
body, the events those of the `n` calls), the accumulator was at least `step`
before each call, and afterwards it is in `[0, step)`.  With `a = 0`, a delta
of `50` gives 2 calls and the residual `16.66666666666666`, and a delta of
`2.5 * step` gives exactly 2 calls and the residual `8.333333333333336`, one
unit in the last place above `0.5 * step`. -/
theorem gameLoop_accumulator (g : Game) (currentTime : ℚ)
    (hstep : g.timestep = Double.nearest (1000 / 60)) (hfirst : g.lastTime ≠ 0)
    (ha0 : 0 ≤ g.accumulator) (hd : 0 ≤ currentTime - g.lastTime)
    (hb : g.accumulator + (currentTime - g.lastTime) ≤ 2 ^ 56) :
    ∃ n : ℕ,
      (∀ fuel, n < fuel → gameLoop fuel currentTime g =
        some (frameStep^[n] (frameStart currentTime g),
          frameEvents n (frameStart currentTime g), n)) ∧
      (∀ i, i < n → g.timestep ≤ (frameStep^[i] (frameStart currentTime g)).accumulator) ∧
      0 ≤ (frameStep^[n] (frameStart currentTime g)).accumulator ∧
      (frameStep^[n] (frameStart currentTime g)).accumulator < g.timestep ∧
      (g.accumulator = 0 → Double.nearest (currentTime - g.lastTime) = 50 →
        n = 2 ∧ (frameStep^[n] (frameStart currentTime g)).accumulator
          = 4691249611844265 / 2 ^ 48) ∧
      (g.accumulator = 0 →
        Double.nearest (currentTime - g.lastTime) = Double.nearest (5/2 * g.timestep) →
        n = 2 ∧ (frameStep^[n] (frameStart currentTime g)).accumulator
          = 4691249611844268 / 2 ^ 49 ∧
        4691249611844268 / 2 ^ 49 = 1/2 * g.timestep + 1 / 2 ^ 49) := by
  have hS : g.timestep = 4691249611844267 / 2 ^ 48 := by rw [hstep, Double.nearest_timestep]
  have hacc : (frameStart currentTime g).accumulator = Double.nearest (g.accumulator +
      Double.nearest (currentTime - g.lastTime)) := by
    simp only [frameStart, hfirst, if_false]
  have hts : (frameStart currentTime g).timestep = g.timestep := rfl
  -- the rounded delta and the rounded sum stay below `2^57`
  have hdb : |currentTime - g.lastTime| < 2 ^ 57 := by
    rw [abs_of_nonneg hd]
    have : (2 : ℚ) ^ 56 < 2 ^ 57 := by norm_num
    linarith
  have hd1 := Double.nearest_le (currentTime - g.lastTime)
  have hd2 := Double.ulp_le_sixteen _ hdb
  have hd0 := Double.nearest_nonneg _ hd
  have hsum0 : 0 ≤ g.accumulator + Double.nearest (currentTime - g.lastTime) := by linarith
  have hsumb : |g.accumulator + Double.nearest (currentTime - g.lastTime)| < 2 ^ 57 := by
    rw [abs_of_nonneg hsum0]
    have : (2 : ℚ) ^ 57 = 2 * 2 ^ 56 := by norm_num
    have : (16 : ℚ) < 2 ^ 56 := by norm_num
    linarith
  have hs1 := Double.nearest_le (g.accumulator + Double.nearest (currentTime - g.lastTime))
  have hs2 := Double.ulp_le_sixteen _ hsumb
  have hb57 : (frameStart currentTime g).accumulator < 2 ^ 57 := by
    rw [hacc]
    have : (2 : ℚ) ^ 57 = 2 * 2 ^ 56 := by norm_num
    have : (16 : ℚ) < 2 ^ 56 := by norm_num
    linarith
  have hnn : 0 ≤ (frameStart currentTime g).accumulator := by
    rw [hacc]
    exact Double.nearest_nonneg _ hsum0
  obtain ⟨k, hk⟩ := Double.nearest_grid
    (g.accumulator + Double.nearest (currentTime - g.lastTime))
  rw [← hacc] at hk
  have hq : (0 : ℚ) < (2 : ℚ) ^ (-1074 : ℤ) := zpow_pos (by norm_num) _
  have hknn : 0 ≤ k := by
    by_contra hneg
    have : (k : ℚ) < 0 := by exact_mod_cast not_le.mp hneg
    have : (k : ℚ) * (2 : ℚ) ^ (-1074 : ℤ) < 0 := mul_neg_of_neg_of_pos this hq
    linarith
  have hk' : (frameStart currentTime g).accumulator
      = ((k.toNat : ℕ) : ℚ) * (2 : ℚ) ^ (-1074 : ℤ) := by
    rw [hk]
    congr 1
    have : ((k.toNat : ℕ) : ℤ) = k := Int.toNat_of_nonneg hknn
    exact_mod_cast this.symm
  obtain ⟨n, hrun, hall, hlo, hhi⟩ := consume_doubles k.toNat (frameStart currentTime g)
    (by rw [hts, hS]; norm_num) hk' hb57
  rw [hts] at hall hhi
  refine ⟨n, hrun, hall, hlo, hhi, fun h0 h50 => ?_, fun h0 h25 => ?_⟩
  · have e0 : (frameStart currentTime g).accumulator = 50 := by
      rw [hacc, h0, h50, zero_add, Double.nearest_fifty]
    obtain ⟨hc, hr⟩ := consume_two (frameStart currentTime g) (4691249611844266 / 2 ^ 47)
      (4691249611844265 / 2 ^ 48) n (by rw [hts, hS, e0]; norm_num)
      (by rw [hts, hS, e0, Double.nearest_fifty_sub]) (by rw [hts, hS]; norm_num)
      (by rw [hts, hS, Double.nearest_fifty_sub_sub]) (by rw [hts, hS]; norm_num)
    have hn := hrun (n + 3) (by omega)
    rw [hc] at hn
    have hn2 : n = 2 := by
      have := congrArg (fun o => o.map (fun r => r.2.2)) hn
      simpa using this.symm
    subst hn2
    exact ⟨rfl, hr⟩
  · have e0 : (frameStart currentTime g).accumulator = 5864062014805334 / 2 ^ 47 := by
      rw [hacc, h0, h25, hS, zero_add, Double.nearest_frame, Double.nearest_frame_self]
    obtain ⟨hc, hr⟩ := consume_two (frameStart currentTime g) (7036874417766401 / 2 ^ 48)
      (4691249611844268 / 2 ^ 49) n (by rw [hts, hS, e0]; norm_num)
      (by rw [hts, hS, e0, Double.nearest_frame_sub]) (by rw [hts, hS]; norm_num)
      (by rw [hts, hS, Double.nearest_frame_sub_sub]) (by rw [hts, hS]; norm_num)
    have hn := hrun (n + 3) (by omega)
    rw [hc] at hn
    have hn2 : n = 2 := by
      have := congrArg (fun o => o.map (fun r => r.2.2)) hn
      simpa using this.symm
    subst hn2
    exact ⟨rfl, hr, by rw [hS]; norm_num⟩

/-- Witness for `gameLoop_accumulator`: a frame 50 ms after the previous one
runs two physics steps. -/
theorem gameLoop_accumulator_witness :
    sampleClock.timestep = Double.nearest (1000 / 60) ∧ sampleClock.lastTime ≠ 0 ∧
    0 ≤ sampleClock.accumulator ∧ 0 ≤ (150 : ℚ) - sampleClock.lastTime ∧
    sampleClock.accumulator + ((150 : ℚ) - sampleClock.lastTime) ≤ 2 ^ 56 ∧
    ∃ n : ℕ, n = 2 ∧
      gameLoop 3 150 sampleClock = some (frameStep^[n] (frameStart 150 sampleClock),
        frameEvents n (frameStart 150 sampleClock), n) ∧
      (frameStep^[n] (frameStart 150 sampleClock)).accumulator
        = 4691249611844265 / 2 ^ 48 := by
  have hl : sampleClock.lastTime = 100 := rfl
  have ha : sampleClock.accumulator = 0 := rfl
  have hd : 0 ≤ (150 : ℚ) - sampleClock.lastTime := by rw [hl]; norm_num
  have hb : sampleClock.accumulator + ((150 : ℚ) - sampleClock.lastTime) ≤ 2 ^ 56 := by
    rw [hl, ha]; norm_num
  have h50 : Double.nearest ((150 : ℚ) - sampleClock.lastTime) = 50 := by
    rw [hl, show (150 : ℚ) - 100 = 50 by norm_num, Double.nearest_fifty]
  obtain ⟨n, hrun, -, -, -, hc, -⟩ := gameLoop_accumulator sampleClock 150 rfl
    (by rw [hl]; norm_num) (by rw [ha]) hd hb
  obtain ⟨hn, hr⟩ := hc ha h50
  exact ⟨rfl, by rw [hl]; norm_num, by rw [ha], hd, hb, n, hn,
    hrun 3 (by omega), hr⟩

/-- C5 as stated fails in the doubles the code computes with.  A frame 50 ms
after the previous one, on an empty accumulator, runs 2 physics steps, not
`floor(50 / (1000/60)) = 3`, and leaves `16.66666666666666`, which is neither
`0` nor `50 - 2 * step`.  And on a delta of `3e17` the loop does not terminate:
no bound on the iterations returns. -/
theorem gameLoop_accumulator_counterexample :
    (sampleClock.lastTime = 100 ∧ sampleClock.accumulator = 0 ∧
      gameLoop 3 150 sampleClock = some (frameStep^[2] (frameStart 150 sampleClock),
        frameEvents 2 (frameStart 150 sampleClock), 2) ∧
      ⌊(sampleClock.accumulator + ((150 : ℚ) - sampleClock.lastTime)) / (1000 / 60)⌋₊ = 3 ∧
      (frameStep^[2] (frameStart 150 sampleClock)).accumulator
        = 4691249611844265 / 2 ^ 48 ∧
      (frameStep^[2] (frameStart 150 sampleClock)).accumulator
        ≠ sampleClock.accumulator + ((150 : ℚ) - sampleClock.lastTime)
          - 2 * sampleClock.timestep) ∧
    (sampleLate.lastTime = 1024 ∧ sampleLate.accumulator = 0 ∧
      ¬ ∃ fuel, (gameLoop fuel (300000000000000000 + 1024) sampleLate).isSome = true) := by
  have hS : sampleClock.timestep = 4691249611844267 / 2 ^ 48 := by
    rw [show sampleClock.timestep = Double.nearest (1000 / 60) from rfl,
      Double.nearest_timestep]
  have hl : sampleClock.lastTime = 100 := rfl
  have ha : sampleClock.accumulator = 0 := rfl
  have hts : (frameStart 150 sampleClock).timestep = sampleClock.timestep := rfl
  have e0 : (frameStart 150 sampleClock).accumulator = 50 := by
    have : (frameStart 150 sampleClock).accumulator = Double.nearest (sampleClock.accumulator +
        Double.nearest (150 - sampleClock.lastTime)) := by
      simp only [frameStart, hl]
      norm_num
    rw [this, hl, ha, show (150 : ℚ) - 100 = 50 by norm_num, Double.nearest_fifty, zero_add,
      Double.nearest_fifty]
  obtain ⟨hc, hr⟩ := consume_two (frameStart 150 sampleClock) (4691249611844266 / 2 ^ 47)
    (4691249611844265 / 2 ^ 48) 0 (by rw [hts, hS, e0]; norm_num)
    (by rw [hts, hS, e0, Double.nearest_fifty_sub]) (by rw [hts, hS]; norm_num)
    (by rw [hts, hS, Double.nearest_fifty_sub_sub]) (by rw [hts, hS]; norm_num)
  refine ⟨⟨hl, ha, hc, ?_, hr, ?_⟩, rfl, rfl, ?_⟩
  · rw [hl, ha, Nat.floor_eq_iff (by norm_num)]
    constructor <;> norm_num
  · rw [hr, hl, ha, hS]
    norm_num
  · rintro ⟨fuel, hf⟩
    have hl2 : sampleLate.lastTime = 1024 := rfl
    have ha2 : sampleLate.accumulator = 0 := rfl
    have e : (frameStart (300000000000000000 + 1024) sampleLate).accumulator
        = 300000000000000000 := by
      have : (frameStart (300000000000000000 + 1024) sampleLate).accumulator
          = Double.nearest (sampleLate.accumulator +
            Double.nearest (300000000000000000 + 1024 - sampleLate.lastTime)) := by
        simp only [frameStart, hl2]
        norm_num
      rw [this, hl2, ha2,
        show (300000000000000000 : ℚ) + 1024 - 1024 = 300000000000000000 by norm_num,
        Double.nearest_big, zero_add, Double.nearest_big]
    have hnone := consume_absorbed fuel (frameStart (300000000000000000 + 1024) sampleLate)
      rfl e
    have hg : gameLoop fuel (300000000000000000 + 1024) sampleLate
        = consume fuel (frameStart (300000000000000000 + 1024) sampleLate) := rfl
    rw [hg, hnone] at hf
    simp at hf

/-! ### C6: the win signal -/

theorem wallCollision_no_win (g : Game) : Event.winMessage ∉ (wallCollision g).2 := by
  unfold wallCollision
  split_ifs <;> simp

theorem paddleCollision_no_win (g : Game) : Event.winMessage ∉ (paddleCollision g).2 := by
  unfold paddleCollision
  split_ifs <;> simp

theorem scorePoints_no_win (g : Game) : Event.winMessage ∉ (scorePoints g).2 := by
  unfold scorePoints resetBall
  split_ifs <;> simp

theorem checkWinner_mem (g : Game) :
    Event.winMessage ∈ checkWinner g ↔
      (g.score.player1 ≥ g.winningScore ∨ g.score.player2 ≥ g.winningScore) := by
  unfold checkWinner
  split_ifs with h <;> simp [h]

theorem scorePoints_winningScore (g : Game) :
    (scorePoints g).1.winningScore = g.winningScore := by
  unfold scorePoints resetBall
  split_ifs <;> rfl

theorem collisions_winningScore (g : Game) :
    (paddleCollision (wallCollision g).1).1.winningScore = g.winningScore := by
  unfold paddleCollision wallCollision
  split_ifs <;> rfl

/-- The score counters never go down in a step. -/
theorem update_score_mono (g : Game) :
    g.score.player1 ≤ (update g).1.score.player1 ∧
    g.score.player2 ≤ (update g).1.score.player2 := by
  have hs := collisions_score (moved g)
  rw [moved_score] at hs
  simp only [update, updateEffects, scorePoints, resetBall]
  split_ifs <;> simp [hs]

/-- C6. In a non-paused step the win notification is emitted if and only if,
after that step's scoring, one of the two counters is at least `winningScore`.
Hence no step emits it while both counters are below the threshold after the
step, and every non-paused step taken once a counter has reached the threshold
emits it. -/
theorem update_win_signal (g : Game) (hp : g.isPaused = false) :
    (Event.winMessage ∈ (update g).2 ↔
      ((update g).1.score.player1 ≥ g.winningScore ∨
        (update g).1.score.player2 ≥ g.winningScore)) ∧
    ((update g).1.score.player1 < g.winningScore →
      (update g).1.score.player2 < g.winningScore → Event.winMessage ∉ (update g).2) ∧
    ((g.score.player1 ≥ g.winningScore ∨ g.score.player2 ≥ g.winningScore) →
      Event.winMessage ∈ (update g).2) := by
  have key : Event.winMessage ∈ (update g).2 ↔
      ((update g).1.score.player1 ≥ g.winningScore ∨
        (update g).1.score.player2 ≥ g.winningScore) := by
    have e2 : (update g).2 = (wallCollision (moved g)).2 ++
        (paddleCollision (wallCollision (moved g)).1).2 ++
        (scorePoints (paddleCollision (wallCollision (moved g)).1).1).2 ++
        checkWinner (scorePoints (paddleCollision (wallCollision (moved g)).1).1).1 := by
      simp [update, hp]
    have e1 : (update g).1.score =
        (scorePoints (paddleCollision (wallCollision (moved g)).1).1).1.score := by
      simp [update, hp, updateEffects]
    rw [e2, e1]
    simp only [List.mem_append, wallCollision_no_win, paddleCollision_no_win,
      scorePoints_no_win, false_or, checkWinner_mem, scorePoints_winningScore,
      collisions_winningScore, moved_winningScore]
  refine ⟨key, fun h1 h2 => ?_, fun h => ?_⟩
  · rw [key]
    push_neg
    exact ⟨h1, h2⟩
  · rw [key]
    have hm := update_score_mono g
    rcases h with h | h
    · exact Or.inl (le_trans h hm.1)
    · exact Or.inr (le_trans h hm.2)

/-- Witness for `update_win_signal`: with player 1 at 5 points the step emits
the win notification. -/
theorem update_win_signal_witness :
    sampleWon.isPaused = false ∧ sampleWon.score.player1 ≥ sampleWon.winningScore ∧
    Event.winMessage ∈ (update sampleWon).2 := by
  have h : sampleWon.score.player1 ≥ sampleWon.winningScore := by
    norm_num [sampleWon, sampleAt]
  exact ⟨rfl, h, (update_win_signal sampleWon rfl).2.2 (Or.inl h)⟩

/-! ### C10: the pause flag -/

/-- C10. With `isPaused` set, `update` returns at once: the whole state (both
paddles, the ball, both counters, the particles, the stars, the random stream)
is the state it was given, and no audio, score or win event is emitted. -/
theorem update_paused (g : Game) (hp : g.isPaused = true) : update g = (g, []) := by
  simp [update, hp]

/-- Witness for `update_paused`. -/
theorem update_paused_witness :
    (samplePaused 400 240 5 5).isPaused = true ∧
    update (samplePaused 400 240 5 5) = (samplePaused 400 240 5 5, []) :=
  ⟨rfl, update_paused (samplePaused 400 240 5 5) rfl⟩

end Game

/-! ## The particle system -/

namespace ParticleSystem

theorem newParticle_bounds (x y : ℚ) (c : String) (r : Rng) (hr : r.InUnit) :
    -5 ≤ (newParticle x y c r).vx ∧ (newParticle x y c r).vx < 5 ∧
    -5 ≤ (newParticle x y c r).vy ∧ (newParticle x y c r).vy < 5 ∧
    1 ≤ (newParticle x y c r).size ∧ (newParticle x y c r).size < 4 := by
  have h0 := hr 0
  have h1 := hr 1
  have h2 := hr 2
  simp only [newParticle]
  refine ⟨?_, ?_, ?_, ?_, ?_, ?_⟩ <;> linarith [h0.1, h0.2, h1.1, h1.2, h2.1, h2.2]

/-- C7. `createParticles(x, y, color, count)` leaves the old list, unchanged and
in the same order, followed by exactly `count` new particles, each at `(x, y)`
with the given color and `life = 1`, and, for draws in `[0, 1)`, with `vx` and
`vy` in `[-5, 5)` and `size` in `[1, 4)`.  In particular on an empty system a
call with `count = 10` leaves exactly 10 particles. -/
theorem createParticles_spec (x y : ℚ) (c : String) (count : ℕ) (ps : List Particle)
    (r : Rng) (hr : r.InUnit) :
    (∃ new, (createParticles x y c count ps r).1 = ps ++ new ∧ new.length = count ∧
      ∀ p ∈ new, p.x = x ∧ p.y = y ∧ p.color = c ∧ p.life = 1 ∧
        -5 ≤ p.vx ∧ p.vx < 5 ∧ -5 ≤ p.vy ∧ p.vy < 5 ∧ 1 ≤ p.size ∧ p.size < 4) ∧
    (createParticles x y c 10 [] r).1.length = 10 := by
  constructor
  · refine ⟨_, createParticles_fst x y c count ps r, by simp, ?_⟩
    intro p hp
    rw [List.mem_map] at hp
    obtain ⟨i, _, rfl⟩ := hp
    exact ⟨rfl, rfl, rfl, rfl, newParticle_bounds x y c _ (hr.drop _)⟩
  · rw [createParticles_fst]
    simp

/-- Witness for `createParticles_spec`: ten particles on an empty system, every
draw equal to `1/2`. -/
theorem createParticles_spec_witness :
    Rng.InUnit (fun _ => 1/2) ∧
    (createParticles 3 4 "0, 255, 255" 10 [] (fun _ => 1/2)).1.length = 10 :=
  ⟨fun _ => by norm_num,
   (createParticles_spec 3 4 "0, 255, 255" 10 [] (fun _ => 1/2) (fun _ => by norm_num)).2⟩

theorem updateSpec_append (a b : List Particle) :
    updateSpec (a ++ b) = updateSpec a ++ updateSpec b := by
  simp [updateSpec, List.filter_append]

theorem mem_updateSpec (ps : List Particle) (q : Particle) :
    q ∈ updateSpec ps ↔ ∃ p ∈ ps, advanceSpec p = q ∧ 0 < q.life := by
  simp only [updateSpec, List.mem_filter, List.mem_map, decide_eq_true_eq]
  constructor
  · rintro ⟨⟨p, hp, rfl⟩, hq⟩
    exact ⟨p, hp, rfl, hq⟩
  · rintro ⟨p, hp, rfl, hq⟩
    exact ⟨⟨p, hp, rfl⟩, hq⟩

/-- One step takes `1/50` off an upper bound on the lives and leaves only
positive lives. -/
theorem update_life_le (ps : List Particle) (L : ℚ) (h : ∀ p ∈ ps, p.life ≤ L) :
    ∀ q ∈ update ps, 0 < q.life ∧ q.life ≤ L - 1/50 := by
  intro q hq
  rw [update_eq_updateSpec, mem_updateSpec] at hq
  obtain ⟨p, hp, rfl, hpos⟩ := hq
  refine ⟨hpos, ?_⟩
  have := h p hp
  simp only [advanceSpec]
  linarith

/-- C9. The backwards loop of `update` with `splice` produces the list the
specification describes: every particle advanced exactly once (`x += vx`,
`y += vy`, `life -= 0.02`, the other fields unchanged), then exactly those with
a positive new life kept, in their original order.  When all lives were at
most 1 before, every particle that remains has its life in `(0, 1]`. -/
theorem update_refines_updateSpec (ps : List Particle) :
    update ps = updateSpec ps ∧
    ((∀ p ∈ ps, p.life ≤ 1) → ∀ q ∈ update ps, 0 < q.life ∧ q.life ≤ 1) := by
  refine ⟨update_eq_updateSpec ps, fun h q hq => ?_⟩
  have := update_life_le ps 1 h q hq
  exact ⟨this.1, by linarith [this.2]⟩

theorem iterate_update_append (k : ℕ) (a b : List Particle) :
    update^[k] (a ++ b) = update^[k] a ++ update^[k] b := by
  induction k with
  | zero => rfl
  | succ k ih =>
      rw [Function.iterate_succ_apply', Function.iterate_succ_apply',
        Function.iterate_succ_apply', ih, update_eq_updateSpec, update_eq_updateSpec,
        update_eq_updateSpec, updateSpec_append]

theorem iterate_update_life_le (k : ℕ) (ps : List Particle) (L : ℚ)
    (h : ∀ p ∈ ps, p.life ≤ L) :
    ∀ q ∈ update^[k + 1] ps, 0 < q.life ∧ q.life ≤ L - ((k : ℚ) + 1) / 50 := by
  induction k with
  | zero =>
      intro q hq
      have := update_life_le ps L h q (by simpa using hq)
      exact ⟨this.1, by norm_num; linarith [this.2]⟩
  | succ k ih =>
      intro q hq
      rw [Function.iterate_succ_apply'] at hq
      have := update_life_le _ _ (fun p hp => (ih p hp).2) q hq
      refine ⟨this.1, ?_⟩
      push_cast
      linarith [this.2]

theorem iterate_stepParticle_life (k : ℕ) (p : Particle) :
    (stepParticle^[k] p).life = p.life - (k : ℚ) / 50 := by
  induction k with
  | zero => simp
  | succ k ih =>
      rw [Function.iterate_succ_apply']
      show (stepParticle^[k] p).life - 1/50 = _
      rw [ih]
      push_cast
      ring

/-- Particles that all have more than `k/50` of life left go through `k` steps
without any of them being removed. -/
theorem iterate_update_survive (k : ℕ) (l : List Particle)
    (h : ∀ p ∈ l, (k : ℚ) / 50 < p.life) :
    update^[k] l = l.map (stepParticle^[k]) := by
  induction k with
  | zero => simp
  | succ k ih =>
      have hk : ∀ p ∈ l, (k : ℚ) / 50 < p.life := by
        intro p hp
        have := h p hp
        push_cast at this
        linarith
      rw [Function.iterate_succ_apply', ih hk, update_eq_updateSpec, updateSpec,
        List.map_map, List.filter_eq_self.mpr]
      · apply List.map_congr_left
        intro p _
        simp only [Function.comp, Function.iterate_succ_apply']
        rfl
      · intro q hq
        rw [List.mem_map] at hq
        obtain ⟨p, hp, rfl⟩ := hq
        have := h p hp
        simp only [Function.comp, decide_eq_true_eq]
        show 0 < (stepParticle^[k] p).life - 1/50
        rw [iterate_stepParticle_life]
        push_cast at this
        linarith

/-- Particles of life 1 appended to a list are all carried along for `k` steps,
as long as `k/50 < 1`, and then have life `1 - k/50`. -/
theorem iterate_update_fresh (k : ℕ) (ps new : List Particle)
    (hnew : ∀ p ∈ new, p.life = 1) (hk : (k : ℚ) / 50 < 1) :
    update^[k] (ps ++ new) = update^[k] ps ++ new.map (stepParticle^[k]) ∧
    ∀ p ∈ new, (stepParticle^[k] p).life = 1 - (k : ℚ) / 50 := by
  constructor
  · rw [iterate_update_append,
      iterate_update_survive k new (fun p hp => by rw [hnew p hp]; exact hk)]
  · intro p hp
    rw [iterate_stepParticle_life, hnew p hp]

/-- A list whose lives are at most 1 is empty after 50 steps or more. -/
theorem iterate_update_nil (k : ℕ) (ps : List Particle) (h : ∀ p ∈ ps, p.life ≤ 1)
    (hk : 1 ≤ ((k : ℚ) + 1) / 50) : update^[k + 1] ps = [] := by
  rw [List.eq_nil_iff_forall_not_mem]
  intro q hq
  have := iterate_update_life_le k ps 1 h q hq
  linarith [this.1, this.2]

/-- C8. With the decay taken as exactly `1/50`, the particles a call of
`createParticles` adds (life 1) are all still present after 49 calls of
`update`, with life `1/50`, and after 50 calls with no further spawn the list is
empty, for every initial list whose lives are at most 1. -/
theorem particle_lifetime (x y : ℚ) (c : String) (count : ℕ) (ps : List Particle) (r : Rng)
    (hlife : ∀ p ∈ ps, p.life ≤ 1) :
    ∃ new, (createParticles x y c count ps r).1 = ps ++ new ∧ new.length = count ∧
      update^[49] (ps ++ new) = update^[49] ps ++ new.map (stepParticle^[49]) ∧
      (∀ p ∈ new, (stepParticle^[49] p).life = 1/50) ∧
      update^[50] (ps ++ new) = [] := by
  have hnew : ∀ p ∈ (List.range count).map (fun i => newParticle x y c (r.drop (3 * i))),
      p.life = 1 := by
    intro p hp
    rw [List.mem_map] at hp
    obtain ⟨i, _, rfl⟩ := hp
    rfl
  have hall : ∀ p ∈ ps ++ (List.range count).map
      (fun i => newParticle x y c (r.drop (3 * i))), p.life ≤ 1 := by
    intro p hp
    rcases List.mem_append.mp hp with h | h
    · exact hlife p h
    · exact (hnew p h).le
  have a := iterate_update_fresh 49 ps _ hnew (by norm_num)
  have b := iterate_update_nil 49 _ hall (by norm_num)
  have e : (1 : ℚ) - ((49 : ℕ) : ℚ) / 50 = 1 / 50 := by norm_num
  rw [e] at a
  exact ⟨_, createParticles_fst x y c count ps r, by simp, a.1, a.2, b⟩

/-- Witness for `particle_lifetime`: ten particles spawned next to one old
particle with life `1/2`. -/
theorem particle_lifetime_witness :
    (∀ p ∈ [sampleParticle], p.life ≤ 1) ∧
    update^[50] (createParticles 3 4 "0, 255, 255" 10 [sampleParticle] (fun _ => 1/2)).1
      = [] := by
  have h : ∀ p ∈ [sampleParticle], p.life ≤ 1 := by
    intro p hp
    rw [List.mem_singleton] at hp
    rw [hp]
    norm_num [sampleParticle]
  obtain ⟨new, he, -, -, -, h50⟩ :=
    particle_lifetime 3 4 "0, 255, 255" 10 [sampleParticle] (fun _ => 1/2) h
  exact ⟨h, by rw [he]; exact h50⟩

end ParticleSystem

/-! ## The starfield -/

namespace Starfield

/-- The draws `update` takes leave a suffix of the stream. -/
theorem starfield_update_snd (W H : ℚ) (stars : List Star) (r : Rng) :
    ∃ k, (update W H stars r).2 = r.drop k := by
  induction stars generalizing r with
  | nil => exact ⟨0, rfl⟩
  | cons s rest ih =>
      unfold update
      split_ifs
      · obtain ⟨k, hk⟩ := ih (r.drop 1)
        exact ⟨1 + k, by simp only [hk, Rng.drop_drop]⟩
      · exact ih r

theorem starStep_drop {W H : ℚ} {r : Rng} {s s' : Star} (j : ℕ)
    (h : StarStep W H (r.drop j) s s') : StarStep W H r s s' := by
  obtain ⟨h1, h2, h3, h4⟩ := h
  refine ⟨h1, h2, h3, fun hx => ?_⟩
  obtain ⟨hW, k, hk⟩ := h4 hx
  exact ⟨hW, k + j, hk⟩

theorem starfield_update_forall₂ (W H : ℚ) (hH : 0 < H) (stars : List Star) (r : Rng)
    (hr : r.InUnit) : List.Forall₂ (StarStep W H r) stars (update W H stars r).1 := by
  induction stars generalizing r with
  | nil => exact List.Forall₂.nil
  | cons s rest ih =>
      unfold update
      split_ifs with hx
      · refine List.Forall₂.cons ?_ ?_
        · refine ⟨rfl, rfl, fun h => absurd hx (not_lt.mpr h), fun _ => ⟨rfl, 0, rfl, ?_, ?_⟩⟩
          · exact mul_nonneg (hr 0).1 hH.le
          · show r 0 * H < H
            nlinarith [(hr 0).2]
        · exact List.Forall₂.imp (fun _ _ h => starStep_drop 1 h) (ih (r.drop 1) (hr.drop 1))
      · refine List.Forall₂.cons ?_ (ih r hr)
        exact ⟨rfl, rfl, fun _ => ⟨rfl, rfl⟩, fun h => absurd h hx⟩

theorem exists_of_forall₂_mem {R : Star → Star → Prop} {l₁ l₂ : List Star}
    (h : List.Forall₂ R l₁ l₂) {b : Star} (hb : b ∈ l₂) : ∃ a ∈ l₁, R a b := by
  induction h with
  | nil => simp at hb
  | cons hab _ ih =>
      rcases List.mem_cons.mp hb with rfl | hb'
      · exact ⟨_, List.mem_cons_self _ _, hab⟩
      · obtain ⟨a, ha, hR⟩ := ih hb'
        exact ⟨a, List.mem_cons_of_mem _ ha, hR⟩

/-- C12. On a surface with `W >= 0` and `H > 0` and draws in `[0, 1)`,
`Starfield.update` keeps the number of stars and each star's size and speed;
a star with `x1 = x - speed >= 0` ends at `(x1, y)`, a star with `x1 < 0` ends
at `x = W` with `y = d * H` in `[0, H)` for a draw `d`; hence every star has
`x >= 0` after the update. -/
theorem starfield_update_spec (W H : ℚ) (hW : 0 ≤ W) (hH : 0 < H) (stars : List Star) (r : Rng)
    (hr : r.InUnit) :
    (update W H stars r).1.length = stars.length ∧
    List.Forall₂ (StarStep W H r) stars (update W H stars r).1 ∧
    ∀ s' ∈ (update W H stars r).1, 0 ≤ s'.x := by
  have h := starfield_update_forall₂ W H hH stars r hr
  refine ⟨h.length_eq.symm, h, ?_⟩
  intro s' hs'
  obtain ⟨s, _, _, _, h3, h4⟩ := exists_of_forall₂_mem h hs'
  by_cases hx : 0 ≤ s.x - s.speed
  · rw [(h3 hx).1]
    exact hx
  · rw [(h4 (not_le.mp hx)).1]
    exact hW

/-- Witness for `starfield_update_spec`: of the two stars of the sample state, the second
leaves the canvas and is put back at `x = 800`. -/
theorem starfield_update_spec_witness :
    (0 : ℚ) ≤ 800 ∧ (0 : ℚ) < 480 ∧ Rng.InUnit (fun _ => 1/2) ∧
    (update 800 480 (sampleAt 400 240 5 5).stars (fun _ => 1/2)).1.length = 2 ∧
    ∀ s' ∈ (update 800 480 (sampleAt 400 240 5 5).stars (fun _ => 1/2)).1, 0 ≤ s'.x := by
  have h := starfield_update_spec 800 480 (by norm_num) (by norm_num) (sampleAt 400 240 5 5).stars
    (fun _ => 1/2) (fun _ => by norm_num)
  exact ⟨by norm_num, by norm_num, fun _ => by norm_num, h.1, h.2.2⟩

end Starfield

/-! ## The event handlers and the clock -/

namespace Game

/-- C11. A pause key-down (`p` or `P`) at time `t` toggles `isPaused` and sets
`lastPausePress = t` if and only if `t - lastPausePress > 200`, and otherwise
changes neither.  Hence of two pause key-downs at times `t1 <= t2` with
`t2 - t1 <= 200`, the first of which is accepted, only the first takes effect:
`isPaused` after both is the negation of its value before the first. -/
theorem keydown_pause_debounce (g : Game) (key : String) (hk : key = "p" ∨ key = "P") :
    (∀ t, t - g.lastPausePress > 200 →
      (keydown key t g).isPaused = !g.isPaused ∧ (keydown key t g).lastPausePress = t) ∧
    (∀ t, ¬ t - g.lastPausePress > 200 →
      (keydown key t g).isPaused = g.isPaused ∧
      (keydown key t g).lastPausePress = g.lastPausePress) ∧
    (∀ t, (keydown key t g).isPaused = !g.isPaused ↔ t - g.lastPausePress > 200) ∧
    (∀ (key2 : String) (t1 t2 : ℚ), key2 = "p" ∨ key2 = "P" → t1 ≤ t2 → t2 - t1 ≤ 200 →
      t1 - g.lastPausePress > 200 →
      (keydown key2 t2 (keydown key t1 g)).isPaused = !g.isPaused ∧
      (keydown key2 t2 (keydown key t1 g)).lastPausePress = t1) := by
  have acc : ∀ t, t - g.lastPausePress > 200 →
      (keydown key t g).isPaused = !g.isPaused ∧ (keydown key t g).lastPausePress = t := by
    intro t ht
    simp [keydown, hk, ht]
  have rej : ∀ (g : Game) (key : String) (t : ℚ), key = "p" ∨ key = "P" →
      ¬ t - g.lastPausePress > 200 →
      (keydown key t g).isPaused = g.isPaused ∧
      (keydown key t g).lastPausePress = g.lastPausePress := by
    intro g key t hk ht
    simp [keydown, hk, ht]
  refine ⟨acc, fun t => rej g key t hk, fun t => ?_, fun key2 t1 t2 hk2 _ h12 h1 => ?_⟩
  · by_cases ht : t - g.lastPausePress > 200
    · simp [ht, (acc t ht).1]
    · simp [ht, (rej g key t hk ht).1]
  · obtain ⟨hp, hl⟩ := acc t1 h1
    have h2 := rej (keydown key t1 g) key2 t2 hk2 (by rw [hl]; exact not_lt.mpr h12)
    exact ⟨h2.1.trans hp, h2.2.trans hl⟩

/-- Witness for `keydown_pause_debounce`: `p` pressed at times `1000` and `1100`
in a fresh game pauses it once. -/
theorem keydown_pause_debounce_witness :
    ("p" = "p" ∨ "p" = "P") ∧ (1000 : ℚ) ≤ 1100 ∧ (1100 : ℚ) - 1000 ≤ 200 ∧
    (1000 : ℚ) - (sampleAt 400 240 5 5).lastPausePress > 200 ∧
    (keydown "p" 1100 (keydown "p" 1000 (sampleAt 400 240 5 5))).isPaused = true ∧
    (keydown "p" 1100 (keydown "p" 1000 (sampleAt 400 240 5 5))).lastPausePress = 1000 := by
  have h1 : (1000 : ℚ) - (sampleAt 400 240 5 5).lastPausePress > 200 := by
    norm_num [sampleAt]
  have h := (keydown_pause_debounce (sampleAt 400 240 5 5) "p" (Or.inl rfl)).2.2.2
    "p" 1000 1100 (Or.inl rfl) (by norm_num) (by norm_num) h1
  exact ⟨Or.inl rfl, by norm_num, by norm_num, h1, h.1, h.2⟩

/-- C14. In a non-paused step each paddle's speed is set from the keys alone:
`-8` when its up key (`w`, `ArrowUp`) is held, the down key held or not; `8`
when only its down key (`s`, `ArrowDown`) is held; `0` when neither is; and the
paddle's y is the clamp of its previous y plus that speed. -/
theorem update_paddle_speed (g : Game) (hp : g.isPaused = false) :
    ((g.keys "w" = true → (update g).1.paddle1.speed = -8) ∧
     (g.keys "w" = false → g.keys "s" = true → (update g).1.paddle1.speed = 8) ∧
     (g.keys "w" = false → g.keys "s" = false → (update g).1.paddle1.speed = 0) ∧
     (update g).1.paddle1.y = max (g.paddle1.height / 2)
       (min (g.canvasHeight - g.paddle1.height / 2)
         (g.paddle1.y + (update g).1.paddle1.speed))) ∧
    ((g.keys "ArrowUp" = true → (update g).1.paddle2.speed = -8) ∧
     (g.keys "ArrowUp" = false → g.keys "ArrowDown" = true →
       (update g).1.paddle2.speed = 8) ∧
     (g.keys "ArrowUp" = false → g.keys "ArrowDown" = false →
       (update g).1.paddle2.speed = 0) ∧
     (update g).1.paddle2.y = max (g.paddle2.height / 2)
       (min (g.canvasHeight - g.paddle2.height / 2)
         (g.paddle2.y + (update g).1.paddle2.speed))) := by
  have s1 : (moved g).paddle1.speed = keySpeed (g.keys "w") (g.keys "s") := rfl
  have s2 : (moved g).paddle2.speed = keySpeed (g.keys "ArrowUp") (g.keys "ArrowDown") := rfl
  rw [update_paddle1 g hp, update_paddle2 g hp, s1, s2, moved_paddle1_y, moved_paddle2_y]
  refine ⟨⟨fun h => ?_, fun h h' => ?_, fun h h' => ?_, rfl⟩,
    ⟨fun h => ?_, fun h h' => ?_, fun h h' => ?_, rfl⟩⟩ <;> simp [keySpeed, h, *]

/-- Witness for `update_paddle_speed`: with `w` and `s` both held the left
paddle moves up. -/
theorem update_paddle_speed_witness :
    (keydown "s" 0 (keydown "w" 0 (sampleAt 400 240 5 5))).isPaused = false ∧
    (keydown "s" 0 (keydown "w" 0 (sampleAt 400 240 5 5))).keys "w" = true ∧
    (keydown "s" 0 (keydown "w" 0 (sampleAt 400 240 5 5))).keys "s" = true ∧
    (update (keydown "s" 0 (keydown "w" 0 (sampleAt 400 240 5 5)))).1.paddle1.speed = -8 := by
  have hw : (keydown "s" 0 (keydown "w" 0 (sampleAt 400 240 5 5))).keys "w" = true := by
    simp [keydown]
  have hs : (keydown "s" 0 (keydown "w" 0 (sampleAt 400 240 5 5))).keys "s" = true := by
    simp [keydown]
  have hp : (keydown "s" 0 (keydown "w" 0 (sampleAt 400 240 5 5))).isPaused = false := by
    simp [keydown, sampleAt]
  exact ⟨hp, hw, hs, (update_paddle_speed _ hp).1.1 hw⟩

/-- C15. On the first call of `gameLoop` (`lastTime = 0`, `accumulator = 0`, a
positive `timestep` such as `1000/60`), whatever the timestamp, no delta is
accumulated: the loop returns with zero calls of `update` and no event, the
accumulator is still `0`, `lastTime` is the timestamp, and nothing else has
changed. -/
theorem gameLoop_first_frame (g : Game) (currentTime : ℚ) (fuel : ℕ)
    (hl : g.lastTime = 0) (ha : g.accumulator = 0) (hs : 0 < g.timestep) :
    gameLoop (fuel + 1) currentTime g = some ({ g with lastTime := currentTime }, [], 0) ∧
    ({ g with lastTime := currentTime } : Game).accumulator = 0 ∧
    ({ g with lastTime := currentTime } : Game).lastTime = currentTime := by
  refine ⟨?_, ha, rfl⟩
  have e : frameStart currentTime g = { g with lastTime := currentTime } := by
    unfold frameStart
    rw [hl, if_pos rfl, sub_self, Double.nearest_zero, add_zero, ha, Double.nearest_zero]
  show consume (fuel + 1) (frameStart currentTime g) = _
  rw [e]
  exact consume_stop fuel _ (by
    show g.accumulator < g.timestep
    rw [ha]
    exact hs)

/-- Witness for `gameLoop_first_frame`: the first frame arrives at time
`12345`. -/
theorem gameLoop_first_frame_witness :
    sampleFirst.lastTime = 0 ∧ sampleFirst.accumulator = 0 ∧ 0 < sampleFirst.timestep ∧
    gameLoop 1 12345 sampleFirst = some ({ sampleFirst with lastTime := 12345 }, [], 0) := by
  have hs : 0 < sampleFirst.timestep := by
    rw [show sampleFirst.timestep = Double.nearest (1000 / 60) from rfl,
      Double.nearest_timestep]
    norm_num
  exact ⟨rfl, rfl, hs, (gameLoop_first_frame sampleFirst 12345 0 rfl rfl hs).1⟩

theorem canvasDimension_of_nonneg (dflt v : ℚ) (h0 : 0 ≤ v) (h1 : v < 2147483648) :
    canvasDimension dflt v = ⌊v⌋ := by
  have hf0 : 0 ≤ ⌊v⌋ := Int.floor_nonneg.mpr h0
  have hf1 : ⌊v⌋ < 2147483648 := by
    have : ((⌊v⌋ : ℤ) : ℚ) < ((2147483648 : ℤ) : ℚ) :=
      lt_of_le_of_lt (Int.floor_le v) (by exact_mod_cast h1)
    exact_mod_cast this
  have hm : ⌊v⌋ % 4294967296 = ⌊v⌋ := Int.emod_eq_of_lt hf0 (by omega)
  unfold canvasDimension
  rw [if_pos h0, hm, if_pos (by omega)]

/-- What the canvas holds after `resize` in a window at least 20 wide. -/
theorem resize_canvas (g : Game) (innerWidth : ℚ) (h : 20 ≤ innerWidth) :
    (resize innerWidth g).canvasWidth = ⌊min 800 (innerWidth - 20)⌋ ∧
    (resize innerWidth g).canvasHeight = ⌊6/10 * (resize innerWidth g).canvasWidth⌋ := by
  have hw0 : 0 ≤ min 800 (innerWidth - 20) := le_min (by norm_num) (by linarith)
  have hw1 : min 800 (innerWidth - 20) ≤ 800 := min_le_left _ _
  have ew : canvasDimension 300 (min 800 (innerWidth - 20))
      = ⌊min 800 (innerWidth - 20)⌋ :=
    canvasDimension_of_nonneg _ _ hw0 (by linarith)
  have hf0 : (0 : ℚ) ≤ ⌊min 800 (innerWidth - 20)⌋ := by
    exact_mod_cast Int.floor_nonneg.mpr hw0
  have hf1 : ((⌊min 800 (innerWidth - 20)⌋ : ℤ) : ℚ) ≤ 800 :=
    le_trans (Int.floor_le _) hw1
  have eh : canvasDimension 150 ((⌊min 800 (innerWidth - 20)⌋ : ℚ) * (6/10))
      = ⌊(⌊min 800 (innerWidth - 20)⌋ : ℚ) * (6/10)⌋ :=
    canvasDimension_of_nonneg _ _ (by positivity) (by linarith)
  refine ⟨ew, ?_⟩
  show canvasDimension 150 (canvasDimension 300 (min 800 (innerWidth - 20)) * (6/10))
    = ⌊6/10 * canvasDimension 300 (min 800 (innerWidth - 20))⌋
  rw [ew, eh, mul_comm]

/-- C16, as the code has it. `resize` changes only the surface size and the
paddles' x: the canvas holds the width `min(800, innerWidth - 20)` and the
height `0.6 * width` as it stores them, as unsigned integers (truncated; for
`innerWidth >= 20` the width is `floor(min(800, innerWidth - 20))` and the
height `floor(0.6 * width)`), and the paddles' x are `30` and `width - 30`.
The paddles' y, speed, width and height, the ball, the score, the pause flag,
the clock, the particles, the stars, the keys and the random stream are
unchanged. -/
theorem resize_frame (g : Game) (innerWidth : ℚ) :
    resize innerWidth g =
      { g with canvasWidth := canvasDimension 300 (min 800 (innerWidth - 20))
               canvasHeight := canvasDimension 150
                 (6/10 * canvasDimension 300 (min 800 (innerWidth - 20)))
               paddle1 := { g.paddle1 with x := 30 }
               paddle2 := { g.paddle2 with
                            x := canvasDimension 300 (min 800 (innerWidth - 20)) - 30 } } ∧
    (20 ≤ innerWidth →
      (resize innerWidth g).canvasWidth = ⌊min 800 (innerWidth - 20)⌋ ∧
      (resize innerWidth g).canvasHeight = ⌊6/10 * (resize innerWidth g).canvasWidth⌋) ∧
    (resize innerWidth g).paddle2.x = (resize innerWidth g).canvasWidth - 30 ∧
    (resize innerWidth g).paddle1.x = 30 ∧
    (resize innerWidth g).paddle1.y = g.paddle1.y ∧
    (resize innerWidth g).paddle1.speed = g.paddle1.speed ∧
    (resize innerWidth g).paddle2.y = g.paddle2.y ∧
    (resize innerWidth g).paddle2.speed = g.paddle2.speed ∧
    (resize innerWidth g).ball = g.ball ∧
    (resize innerWidth g).score = g.score ∧
    (resize innerWidth g).isPaused = g.isPaused ∧
    (resize innerWidth g).accumulator = g.accumulator ∧
    (resize innerWidth g).particles = g.particles ∧
    (resize innerWidth g).stars = g.stars := by
  refine ⟨?_, resize_canvas g innerWidth, rfl, rfl, rfl, rfl, rfl, rfl, rfl, rfl, rfl, rfl,
    rfl, rfl⟩
  simp only [resize, mul_comm]

/-- C16 as stated fails on the height: in a window with `innerWidth = 101` the
canvas holds the width `81` and the height `48`, not `0.6 * 81 = 48.6`. -/
theorem resize_frame_counterexample :
    (resize 101 sampleFirst).canvasWidth = 81 ∧
    (resize 101 sampleFirst).canvasHeight = 48 ∧
    (resize 101 sampleFirst).canvasHeight ≠ 6/10 * (resize 101 sampleFirst).canvasWidth := by
  have h := resize_canvas sampleFirst 101 (by norm_num)
  have ew : (resize 101 sampleFirst).canvasWidth = 81 := by
    rw [h.1]
    have : ⌊min (800 : ℚ) (101 - 20)⌋ = 81 := by
      rw [Int.floor_eq_iff]
      constructor <;> norm_num
    rw [this]
    norm_num
  have eh : (resize 101 sampleFirst).canvasHeight = 48 := by
    rw [h.2, ew]
    have : ⌊(6/10 : ℚ) * 81⌋ = 48 := by
      rw [Int.floor_eq_iff]
      constructor <;> norm_num
    rw [this]
    norm_num
  refine ⟨ew, eh, ?_⟩
  rw [eh, ew]
  norm_num

/-! ### C17: both paddles hit in one step -/

/-- C17, as the code has it. In a non-paused step in which
`checkPaddleCollision` holds for both paddles, the collision block, guarded by
the OR of the two tests, runs once: the horizontal velocity after the collision
handling is `-1.1` times its value before it (inverted and scaled once, not
twice), which differs from the value before unless that is `0`; when nobody
scores in the step this is also the horizontal velocity at the end of the
step. -/
theorem update_double_hit (g : Game) (hp : g.isPaused = false)
    (h1 : checkPaddleCollision (moved g) (moved g).paddle1 = true)
    (h2 : checkPaddleCollision (moved g) (moved g).paddle2 = true) :
    (paddleCollision (wallCollision (moved g)).1).1.ball.speedX = -11/10 * g.ball.speedX ∧
    ((paddleCollision (wallCollision (moved g)).1).1.ball.speedX = g.ball.speedX ↔
      g.ball.speedX = 0) ∧
    (StaysInPlay g → (update g).1.ball.speedX = -11/10 * g.ball.speedX) := by
  have hc : collides g = true := by simp [collides, h1, h2]
  have e : (paddleCollision (wallCollision (moved g)).1).1.ball.speedX
      = -11/10 * g.ball.speedX := by
    have hx : (wallCollision (moved g)).1.ball.speedX = g.ball.speedX := by
      unfold wallCollision
      split_ifs <;> rfl
    simp only [paddleCollision, wallCollision_check, wallCollision_paddle1,
      wallCollision_paddle2, h1, h2, Bool.or_self, if_true, hx]
    ring
  refine ⟨e, ?_, fun hs => ?_⟩
  · rw [e]
    constructor
    · intro h
      linarith
    · intro h
      rw [h]
      norm_num
  · rw [update_ball_inPlay g hp hs]
    simp only [hc, if_true]
    ring

/-- Witness for `update_double_hit`: on the 60 by 36 surface both paddles
stand at `x = 30` and the ball leaves them with horizontal speed `5.5`. -/
theorem update_double_hit_witness :
    sampleDouble.isPaused = false ∧
    checkPaddleCollision (moved sampleDouble) (moved sampleDouble).paddle1 = true ∧
    checkPaddleCollision (moved sampleDouble) (moved sampleDouble).paddle2 = true ∧
    (paddleCollision (wallCollision (moved sampleDouble)).1).1.ball.speedX = 11/2 := by
  have h1 : checkPaddleCollision (moved sampleDouble) (moved sampleDouble).paddle1 = true := by
    simp only [checkPaddleCollision, moved_ball_x, moved_ball_y, moved_ball_size,
      moved_paddle1_y]
    norm_num [sampleDouble, sampleAt, moved, constrainPaddles, constrain,
      updatePaddlePositions, paddleMovement, ballMovement, keySpeed]
  have h2 : checkPaddleCollision (moved sampleDouble) (moved sampleDouble).paddle2 = true := by
    simp only [checkPaddleCollision, moved_ball_x, moved_ball_y, moved_ball_size,
      moved_paddle2_y]
    norm_num [sampleDouble, sampleAt, moved, constrainPaddles, constrain,
      updatePaddlePositions, paddleMovement, ballMovement, keySpeed]
  have h := (update_double_hit sampleDouble rfl h1 h2).1
  refine ⟨rfl, h1, h2, ?_⟩
  rw [h]
  norm_num [sampleDouble, sampleAt]

/-- C17 as stated fails: on the 60 by 36 surface `checkPaddleCollision` holds
for both paddles in the step, and the horizontal velocity after the collision
handling is `5.5`, not the `-5` it was before. -/
theorem update_double_hit_counterexample :
    sampleDouble.isPaused = false ∧
    checkPaddleCollision (moved sampleDouble) (moved sampleDouble).paddle1 = true ∧
    checkPaddleCollision (moved sampleDouble) (moved sampleDouble).paddle2 = true ∧
    sampleDouble.ball.speedX = -5 ∧
    (paddleCollision (wallCollision (moved sampleDouble)).1).1.ball.speedX = 11/2 ∧
    (paddleCollision (wallCollision (moved sampleDouble)).1).1.ball.speedX
      ≠ sampleDouble.ball.speedX := by
  have h1 : checkPaddleCollision (moved sampleDouble) (moved sampleDouble).paddle1 = true := by
    simp only [checkPaddleCollision, moved_ball_x, moved_ball_y, moved_ball_size,
      moved_paddle1_y]
    norm_num [sampleDouble, sampleAt, moved, constrainPaddles, constrain,
      updatePaddlePositions, paddleMovement, ballMovement, keySpeed]
  have h2 : checkPaddleCollision (moved sampleDouble) (moved sampleDouble).paddle2 = true := by
    simp only [checkPaddleCollision, moved_ball_x, moved_ball_y, moved_ball_size,
      moved_paddle2_y]
    norm_num [sampleDouble, sampleAt, moved, constrainPaddles, constrain,
      updatePaddlePositions, paddleMovement, ballMovement, keySpeed]
  have hx : (wallCollision (moved sampleDouble)).1.ball.speedX = -5 := by
    unfold wallCollision
    split_ifs <;> rfl
  have e : (paddleCollision (wallCollision (moved sampleDouble)).1).1.ball.speedX = 11/2 := by
    simp only [paddleCollision, wallCollision_check, wallCollision_paddle1,
      wallCollision_paddle2, h1, h2, Bool.or_self, if_true, hx]
    norm_num
  refine ⟨rfl, h1, h2, rfl, e, ?_⟩
  rw [e]
  norm_num [sampleDouble, sampleAt]

/-! ### Runs of actions -/

theorem keydown_ball (key : String) (now : ℚ) (g : Game) : (keydown key now g).ball = g.ball := by
  unfold keydown
  dsimp only
  split_ifs <;> rfl

theorem keydown_canvas (key : String) (now : ℚ) (g : Game) :
    (keydown key now g).canvasWidth = g.canvasWidth ∧
    (keydown key now g).canvasHeight = g.canvasHeight ∧
    (keydown key now g).random = g.random := by
  unfold keydown
  dsimp only
  split_ifs <;> exact ⟨rfl, rfl, rfl⟩

/-- Only a physics step touches the ball. -/
theorem act_ball (a : Action) (g : Game) (h : a ≠ Action.step) : (act a g).ball = g.ball := by
  cases a with
  | step => exact absurd rfl h
  | resized w => rfl
  | keyDown key now => exact keydown_ball key now g
  | keyUp key => rfl

theorem scores_eq_false_iff (g : Game) : scores g = false ↔ StaysInPlay g := by
  simp [scores, StaysInPlay]

theorem scores_eq_true_iff (g : Game) : scores g = true ↔ ¬ StaysInPlay g := by
  rw [← scores_eq_false_iff]
  simp

/-- The horizontal speed after a physics step: unchanged when paused, `5` or
`-5` after a scoring step, multiplied by `-1.1` after a paddle collision
without a score, unchanged otherwise. -/
theorem update_speedX (g : Game) :
    (g.isPaused = true → (update g).1.ball.speedX = g.ball.speedX) ∧
    (g.isPaused = false → scores g = true →
      ((update g).1.ball.speedX = 5 ∨ (update g).1.ball.speedX = -5)) ∧
    (g.isPaused = false → scores g = false → collides g = true →
      (update g).1.ball.speedX = g.ball.speedX * (-11/10)) ∧
    (g.isPaused = false → scores g = false → collides g = false →
      (update g).1.ball.speedX = g.ball.speedX) := by
  refine ⟨fun hp => by simp [update, hp], fun hp hs => ?_, fun hp hs hc => ?_,
    fun hp hs hc => ?_⟩
  · rw [update_ball_scored g hp ((scores_eq_true_iff g).mp hs)]
    dsimp only
    split_ifs
    · exact Or.inl rfl
    · exact Or.inr rfl
  · rw [update_ball_inPlay g hp ((scores_eq_false_iff g).mp hs)]
    simp [hc]
  · rw [update_ball_inPlay g hp ((scores_eq_false_iff g).mp hs)]
    simp [hc]

/-- One action keeps the relation between the horizontal speed and the number
of paddle hits of the rally. -/
theorem act_speedX (a : Action) (g : Game) (k : ℕ)
    (h : |g.ball.speedX| = 5 * (11/10 : ℚ) ^ k) :
    |(act a g).ball.speedX| = 5 * (11/10 : ℚ) ^ (hitsAfter a g k) := by
  by_cases ha : a = Action.step
  · subst ha
    obtain ⟨u1, u2, u3, u4⟩ := update_speedX g
    simp only [act, hitsAfter]
    cases hp : g.isPaused
    · cases hs : scores g
      · cases hc : collides g
        · simp only [Bool.false_eq_true, if_false]
          rw [u4 hp hs hc, h]
        · simp only [Bool.false_eq_true, if_false, if_true]
          rw [u3 hp hs hc, abs_mul, h, pow_succ]
          have e : |(-11/10 : ℚ)| = 11/10 := by norm_num [abs_of_pos]
          rw [e]
          ring
      · simp only [Bool.false_eq_true, if_false, if_true]
        rcases u2 hp hs with e | e <;> rw [e] <;> norm_num
    · simp only [if_true]
      rw [u1 hp, h]
  · rw [act_ball a g ha, h]
    cases a with
    | step => exact absurd rfl ha
    | resized w => rfl
    | keyDown key now => rfl
    | keyUp key => rfl

theorem run_speedX (acts : List Action) : ∀ (g : Game) (k : ℕ),
    |g.ball.speedX| = 5 * (11/10 : ℚ) ^ k →
    |(run acts g).ball.speedX| = 5 * (11/10 : ℚ) ^ (rallyHits acts g k) := by
  induction acts with
  | nil => intro g k h; exact h
  | cons a rest ih =>
      intro g k h
      exact ih (act a g) (hitsAfter a g k) (act_speedX a g k h)

theorem init_speedX (W H : ℚ) (r : Rng) : |(init W H r).ball.speedX| = 5 * (11/10 : ℚ) ^ 0 := by
  show |(5 : ℚ)| = 5 * (11/10 : ℚ) ^ 0
  norm_num

theorem five_le_rally (k : ℕ) : (5 : ℚ) ≤ 5 * (11/10 : ℚ) ^ k := by
  have : (1 : ℚ) ≤ (11/10 : ℚ) ^ k := one_le_pow₀ (by norm_num)
  linarith

/-- C13. In every state reached from the initial state (ball velocity
`(5, 5)`; on any surface, and in particular the one the constructor sizes from
`innerWidth`) by physics steps, resizes and key events, whatever the random
draws, the ball does not have both `speedX = 0` and `speedY = 0`: its
horizontal speed is never `0`. -/
theorem ball_never_stationary (acts : List Action) (W H innerWidth : ℚ) (r : Rng) :
    ¬ ((run acts (init W H r)).ball.speedX = 0 ∧ (run acts (init W H r)).ball.speedY = 0) ∧
    ¬ ((run acts (new innerWidth r)).ball.speedX = 0 ∧
      (run acts (new innerWidth r)).ball.speedY = 0) := by
  have key : ∀ W H : ℚ, ¬ ((run acts (init W H r)).ball.speedX = 0 ∧
      (run acts (init W H r)).ball.speedY = 0) := by
    rintro W H ⟨hx, -⟩
    have h := run_speedX acts (init W H r) 0 (init_speedX W H r)
    rw [hx, abs_zero] at h
    have := five_le_rally (rallyHits acts (init W H r) 0)
    linarith
  exact ⟨key W H, key _ _⟩

/-- C18. In every state reached from the initial state by physics steps (and
resizes and key events), `|speedX| = 5 * 1.1^k` with `k` the number of
paddle-collision steps since the last ball reset or the start, so
`|speedX| >= 5`.  Nothing caps it: a non-scoring step with a paddle collision
multiplies `|speedX|` by `1.1` whatever its value.  And `|speedX|` only ever
decreases in a scoring step. -/
theorem speedX_rally (acts : List Action) (W H : ℚ) (r : Rng) :
    |(run acts (init W H r)).ball.speedX|
      = 5 * (11/10 : ℚ) ^ (rallyHits acts (init W H r) 0) ∧
    5 ≤ |(run acts (init W H r)).ball.speedX| ∧
    (∀ g : Game, g.isPaused = false → scores g = false → collides g = true →
      |(update g).1.ball.speedX| = 11/10 * |g.ball.speedX|) ∧
    (∀ (a : Action) (g : Game), |(act a g).ball.speedX| < |g.ball.speedX| →
      a = Action.step ∧ g.isPaused = false ∧ scores g = true) := by
  have h := run_speedX acts (init W H r) 0 (init_speedX W H r)
  refine ⟨h, by rw [h]; exact five_le_rally _, fun g hp hs hc => ?_, fun a g hlt => ?_⟩
  · rw [(update_speedX g).2.2.1 hp hs hc, abs_mul]
    norm_num [abs_of_pos, mul_comm]
  · by_contra hcon
    have hge : |g.ball.speedX| ≤ |(act a g).ball.speedX| := by
      by_cases ha : a = Action.step
      · subst ha
        obtain ⟨u1, -, u3, u4⟩ := update_speedX g
        simp only [act]
        cases hp : g.isPaused
        · cases hs : scores g
          · cases hc : collides g
            · rw [u4 hp hs hc]
            · rw [u3 hp hs hc, abs_mul]
              have : |(-11/10 : ℚ)| = 11/10 := by norm_num [abs_of_pos]
              rw [this]
              nlinarith [abs_nonneg g.ball.speedX]
          · exact absurd ⟨rfl, hp, hs⟩ hcon
        · rw [u1 hp]
      · rw [act_ball a g ha]
    linarith

/-! ### The ball and the wall bands in exact arithmetic -/

theorem initStars_snd (W H : ℚ) (n : ℕ) (stars : List Star) (r : Rng) :
    (Starfield.initStars W H n stars r).2 = r.drop (4 * n) := by
  induction n generalizing stars r with
  | zero => rfl
  | succ n ih =>
      rw [Starfield.initStars, ih, Rng.drop_drop, show 4 + 4 * n = 4 * (n + 1) by omega]

theorem update_canvas (g : Game) :
    (update g).1.canvasWidth = g.canvasWidth ∧ (update g).1.canvasHeight = g.canvasHeight := by
  simp only [update, updateEffects, scorePoints, resetBall, paddleCollision, wallCollision]
  split_ifs <;> exact ⟨rfl, rfl⟩

/-- The draws of a physics step leave a suffix of the stream. -/
theorem update_random (g : Game) : ∃ k, (update g).1.random = g.random.drop k := by
  cases hp : g.isPaused
  · obtain ⟨k, hk⟩ := collisions_random (moved g)
    rw [moved_random] at hk
    have hsc : ∃ j, (scorePoints (paddleCollision (wallCollision (moved g)).1).1).1.random
        = g.random.drop j := by
      unfold scorePoints
      split_ifs
      · exact ⟨k + 2, by simp only [resetBall, hk, Rng.drop_drop]⟩
      · exact ⟨k + 2, by simp only [resetBall, hk, Rng.drop_drop]⟩
      · exact ⟨k, hk⟩
    obtain ⟨j, hj⟩ := hsc
    obtain ⟨m, hm⟩ := Starfield.starfield_update_snd
      (scorePoints (paddleCollision (wallCollision (moved g)).1).1).1.canvasWidth
      (scorePoints (paddleCollision (wallCollision (moved g)).1).1).1.canvasHeight
      (scorePoints (paddleCollision (wallCollision (moved g)).1).1).1.stars
      (scorePoints (paddleCollision (wallCollision (moved g)).1).1).1.random
    refine ⟨j + m, ?_⟩
    have e : (update g).1.random = (Starfield.update
        (scorePoints (paddleCollision (wallCollision (moved g)).1).1).1.canvasWidth
        (scorePoints (paddleCollision (wallCollision (moved g)).1).1).1.canvasHeight
        (scorePoints (paddleCollision (wallCollision (moved g)).1).1).1.stars
        (scorePoints (paddleCollision (wallCollision (moved g)).1).1).1.random).2 := by
      simp [update, hp, updateEffects]
    rw [e, hm, hj, Rng.drop_drop]
  · exact ⟨0, by simp [update, hp, Rng.drop_zero]⟩

/-- A physics step keeps the invariant `InField`, on a surface at least 30
high. -/
theorem update_inField (W H : ℚ) (hW : 0 < W) (hH : 30 ≤ H) (g : Game)
    (h : InField W H g) : InField W H (update g).1 := by
  obtain ⟨hcw, hch, hsz, hr, hx, hv, hy⟩ := h
  cases hp : g.isPaused
  · obtain ⟨k, hk⟩ := update_random g
    have hr' : (update g).1.random.InUnit := by rw [hk]; exact hr.drop k
    have hc := update_canvas g
    by_cases hs : StaysInPlay g
    · have hb := update_ball_inPlay g hp hs
      have e1 : (update g).1.ball.y = g.ball.y + g.ball.speedY := by rw [hb]
      have e2 : (update g).1.ball.speedY
          = if bounces g then g.ball.speedY * -1 else g.ball.speedY := by rw [hb]
      have e3 : (update g).1.ball.x = g.ball.x + g.ball.speedX := by rw [hb]
      have e4 : (update g).1.ball.size = g.ball.size := by rw [hb]
      refine ⟨hc.1.trans hcw, hc.2.trans hch, e4.trans hsz, hr',
        by rw [e3]; exact ⟨hs.1, hcw ▸ hs.2⟩, ?_, ?_⟩
      · rw [e2]
        split_ifs
        · constructor <;> linarith [hv.1, hv.2]
        · exact hv
      · rw [e1, e2]
        by_cases hbn : bounces g = true
        · have hw := (bounces_iff g).mp hbn
          rw [hsz, hch] at hw
          simp only [hbn, if_true]
          rcases hw with hw | hw
          · right; left
            rcases hy with hy | hy | hy
            · refine ⟨?_, hw, ?_, ?_, ?_⟩ <;> linarith [hv.1, hv.2, hy.1, hy.2]
            · linarith [hy.2.2.2.1]
            · linarith [hy.2.2.2.1]
          · right; right
            rcases hy with hy | hy | hy
            · refine ⟨hw, ?_, ?_, ?_, ?_⟩ <;> linarith [hv.1, hv.2, hy.1, hy.2]
            · linarith [hy.2.2.2.2]
            · linarith [hy.2.2.2.2]
        · have hw : ¬ (g.ball.y + g.ball.speedY ≤ g.ball.size ∨
              g.ball.y + g.ball.speedY ≥ g.canvasHeight - g.ball.size) :=
            fun hcon => hbn ((bounces_iff g).mpr hcon)
          rw [hsz, hch] at hw
          push_neg at hw
          simp only [hbn, Bool.false_eq_true, if_false]
          left
          exact hw
    · have hb := update_ball_scored g hp hs
      have e1 : (update g).1.ball.y = g.canvasHeight / 2 := by rw [hb]
      have e2 : (update g).1.ball.speedY = g.random (drawsBefore g + 1) * 6 - 3 := by rw [hb]
      have e3 : (update g).1.ball.x = g.canvasWidth / 2 := by rw [hb]
      have e4 : (update g).1.ball.size = g.ball.size := by rw [hb]
      have hd := hr (drawsBefore g + 1)
      refine ⟨hc.1.trans hcw, hc.2.trans hch, e4.trans hsz, hr', ?_, ?_, ?_⟩
      · rw [e3, hcw]
        constructor <;> linarith
      · rw [e2]
        constructor <;> linarith [hd.1, hd.2]
      · left
        rw [e1, hch]
        constructor <;> linarith
  · have e : (update g).1 = g := by simp [update, hp]
    rw [e]
    exact ⟨hcw, hch, hsz, hr, hx, hv, hy⟩

theorem act_inField (W H : ℚ) (hW : 0 < W) (hH : 30 ≤ H) (a : Action) (g : Game)
    (ha : a.keepsSurface = true) (h : InField W H g) : InField W H (act a g) := by
  cases a with
  | step => exact update_inField W H hW hH g h
  | resized w => exact absurd ha (by simp [Action.keepsSurface])
  | keyDown key now =>
      obtain ⟨c1, c2, c3⟩ := keydown_canvas key now g
      unfold InField
      simp only [act, keydown_ball, c1, c2, c3]
      exact h
  | keyUp key => exact h

theorem run_inField (W H : ℚ) (hW : 0 < W) (hH : 30 ≤ H) (acts : List Action) :
    ∀ g : Game, (∀ a ∈ acts, a.keepsSurface = true) → InField W H g →
      InField W H (run acts g) := by
  induction acts with
  | nil => intro g _ h; exact h
  | cons a rest ih =>
      intro g hk h
      exact ih (act a g) (fun b hb => hk b (List.mem_cons_of_mem _ hb))
        (act_inField W H hW hH a g (hk a (List.mem_cons_self _ _)) h)

theorem init_inField (W H : ℚ) (hW : 0 < W) (hH : 30 ≤ H) (r : Rng) (hr : r.InUnit) :
    InField W H (init W H r) := by
  refine ⟨rfl, rfl, rfl, ?_, ?_, ?_, Or.inl ?_⟩
  · show (Starfield.initStars W H 200 [] r).2.InUnit
    rw [initStars_snd]
    exact hr.drop _
  · show 0 ≤ W / 2 ∧ W / 2 ≤ W
    constructor <;> linarith
  · show (-5 : ℚ) ≤ 5 ∧ (5 : ℚ) ≤ 5
    constructor <;> norm_num
  · show 10 < H / 2 ∧ H / 2 < H - 10
    constructor <;> linarith

/-- In exact arithmetic, on a surface of fixed size with `W > 0` and
`H >= 30`, with draws in `[0, 1)`, in every state reached from the initial
state by physics steps and key events (no resize), the ball centre satisfies
`0 <= x <= W` and `5 < y < H - 5`, `|speedY| <= 5`, and a ball in a wall band
is moving out of it.  The proof rests on `(y + v) - v = y`, which the doubles
of the code do not satisfy: see the section on the wall test in doubles. -/
theorem ball_stays_inside_exact (acts : List Action) (W H : ℚ) (r : Rng) (hW : 0 < W)
    (hH : 30 ≤ H) (hr : r.InUnit) (hk : ∀ a ∈ acts, a.keepsSurface = true) :
    (0 ≤ (run acts (init W H r)).ball.x ∧ (run acts (init W H r)).ball.x ≤ W) ∧
    (5 < (run acts (init W H r)).ball.y ∧ (run acts (init W H r)).ball.y < H - 5) ∧
    |(run acts (init W H r)).ball.speedY| ≤ 5 ∧
    ((run acts (init W H r)).ball.y ≤ 10 → 0 < (run acts (init W H r)).ball.speedY) ∧
    ((run acts (init W H r)).ball.y ≥ H - 10 → (run acts (init W H r)).ball.speedY < 0) := by
  obtain ⟨-, -, -, -, hx, hv, hy⟩ :=
    run_inField W H hW hH acts (init W H r) hk (init_inField W H hW hH r hr)
  refine ⟨hx, ?_, abs_le.mpr hv, fun h => ?_, fun h => ?_⟩
  · rcases hy with hy | hy | hy
    · constructor <;> linarith [hy.1, hy.2]
    · constructor <;> linarith [hy.1, hy.2.1]
    · constructor <;> linarith [hy.1, hy.2.1]
  · rcases hy with hy | hy | hy
    · linarith [hy.1]
    · exact hy.2.2.1
    · linarith [hy.1]
  · rcases hy with hy | hy | hy
    · linarith [hy.2]
    · linarith [hy.2.1]
    · exact hy.2.2.1

/-- Witness for `ball_stays_inside_exact`: two physics steps with a key press in
between on the full-size surface. -/
theorem ball_stays_inside_exact_witness :
    (0 : ℚ) < 800 ∧ (30 : ℚ) ≤ 480 ∧ Rng.InUnit (fun _ => 1/2) ∧
    (∀ a ∈ [Action.step, Action.keyDown "w" 0, Action.step], a.keepsSurface = true) ∧
    (5 < (run [Action.step, Action.keyDown "w" 0, Action.step]
        (init 800 480 (fun _ => 1/2))).ball.y ∧
      (run [Action.step, Action.keyDown "w" 0, Action.step]
        (init 800 480 (fun _ => 1/2))).ball.y < 480 - 5) := by
  have hk : ∀ a ∈ [Action.step, Action.keyDown "w" 0, Action.step],
      a.keepsSurface = true := by
    intro a ha
    simp only [List.mem_cons, List.mem_singleton, List.not_mem_nil, or_false] at ha
    rcases ha with rfl | rfl | rfl <;> rfl
  have h := ball_stays_inside_exact [Action.step, Action.keyDown "w" 0, Action.step] 800 480
    (fun _ => 1/2) (by norm_num) (by norm_num) (fun _ => by norm_num) hk
  exact ⟨by norm_num, by norm_num, fun _ => by norm_num, hk, h.2.1⟩

/-! ### C19: the wall test in doubles -/

theorem wallCollision_ball_y (g : Game) : (wallCollision g).1.ball.y = g.ball.y := by
  unfold wallCollision
  split_ifs <;> rfl

theorem wallCollision_ball_size (g : Game) : (wallCollision g).1.ball.size = g.ball.size := by
  unfold wallCollision
  split_ifs <;> rfl

theorem wallCollision_canvasHeight (g : Game) :
    (wallCollision g).1.canvasHeight = g.canvasHeight := by
  unfold wallCollision
  split_ifs <;> rfl

theorem wallCollision_speedY_of_hit (g : Game) (h : hitsWall g = true) :
    (wallCollision g).1.ball.speedY = g.ball.speedY * -1 := by
  unfold wallCollision
  rw [if_pos h]

/-- C19 on the code, in doubles. On the 232 by 139 surface the bottom band
starts at `y = 129`.  The ball of `sampleTrap` is in the band moving up, one
step after its bounce.  In exact arithmetic its next position is below `129`
and the wall test of line 107 does not hold; in doubles the sum rounds to
exactly `129`, the test holds again and line 108 turns the ball back towards
the wall (`speedY > 0` at `y = 129 = H - 10`).  The step after that takes it
to the position and velocity it started from, so the test holds on every
following step and the ball does not leave the band. -/
theorem wall_trap_rounding :
    (sampleTrap.canvasHeight - sampleTrap.ball.size = 129 ∧
      129 ≤ sampleTrap.ball.y ∧ sampleTrap.ball.speedY < 0) ∧
    hitsWall (ballMovement sampleTrap) = false ∧
    (hitsWall (ballMovementRounded sampleTrap) = true ∧
      (wallCollision (ballMovementRounded sampleTrap)).1.ball.y = 129 ∧
      (wallCollision (ballMovementRounded sampleTrap)).1.ball.speedY
        = 190315467207773 / 2 ^ 46 ∧
      0 < (wallCollision (ballMovementRounded sampleTrap)).1.ball.speedY) ∧
    (hitsWall (ballMovementRounded (wallCollision (ballMovementRounded sampleTrap)).1) = true ∧
      (wallCollision (ballMovementRounded
        (wallCollision (ballMovementRounded sampleTrap)).1)).1.ball.y = sampleTrap.ball.y ∧
      (wallCollision (ballMovementRounded
        (wallCollision (ballMovementRounded sampleTrap)).1)).1.ball.speedY
        = sampleTrap.ball.speedY) := by
  have hy : sampleTrap.ball.y = 2316970866531607 / 2 ^ 44 := rfl
  have hv : sampleTrap.ball.speedY = -(190315467207773 / 2 ^ 46) := rfl
  have hH : sampleTrap.canvasHeight = 139 := rfl
  have hz : sampleTrap.ball.size = 10 := rfl
  -- first rounded step
  have y1 : (ballMovementRounded sampleTrap).ball.y = 129 := by
    show Double.nearest (sampleTrap.ball.y + sampleTrap.ball.speedY) = 129
    rw [hy, hv, Double.nearest_trap_up]
  have w1 : hitsWall (ballMovementRounded sampleTrap) = true := by
    have hH1 : (ballMovementRounded sampleTrap).canvasHeight = 139 := rfl
    have hz1 : (ballMovementRounded sampleTrap).ball.size = 10 := rfl
    simp only [hitsWall, y1, hH1, hz1]
    norm_num
  have c1y : (wallCollision (ballMovementRounded sampleTrap)).1.ball.y = 129 := by
    rw [wallCollision_ball_y, y1]
  have c1v : (wallCollision (ballMovementRounded sampleTrap)).1.ball.speedY
      = 190315467207773 / 2 ^ 46 := by
    rw [wallCollision_speedY_of_hit _ w1]
    show sampleTrap.ball.speedY * -1 = _
    rw [hv]
    norm_num
  have c1H : (wallCollision (ballMovementRounded sampleTrap)).1.canvasHeight = 139 := by
    rw [wallCollision_canvasHeight]
    rfl
  have c1z : (wallCollision (ballMovementRounded sampleTrap)).1.ball.size = 10 := by
    rw [wallCollision_ball_size]
    rfl
  -- second rounded step
  have y2 : (ballMovementRounded (wallCollision (ballMovementRounded sampleTrap)).1).ball.y
      = 2316970866531607 / 2 ^ 44 := by
    show Double.nearest ((wallCollision (ballMovementRounded sampleTrap)).1.ball.y
      + (wallCollision (ballMovementRounded sampleTrap)).1.ball.speedY) = _
    rw [c1y, c1v, Double.nearest_trap_down]
  have v2 : (ballMovementRounded (wallCollision (ballMovementRounded sampleTrap)).1).ball.speedY
      = 190315467207773 / 2 ^ 46 := c1v
  have w2 : hitsWall (ballMovementRounded (wallCollision (ballMovementRounded sampleTrap)).1)
      = true := by
    have hH2 : (ballMovementRounded
        (wallCollision (ballMovementRounded sampleTrap)).1).canvasHeight = 139 := c1H
    have hz2 : (ballMovementRounded
        (wallCollision (ballMovementRounded sampleTrap)).1).ball.size = 10 := c1z
    simp only [hitsWall, y2, hH2, hz2]
    norm_num
  refine ⟨⟨by rw [hH, hz]; norm_num, by rw [hy]; norm_num, by rw [hv]; norm_num⟩, ?_,
    ⟨w1, c1y, c1v, by rw [c1v]; norm_num⟩, w2, ?_, ?_⟩
  · have ye : (ballMovement sampleTrap).ball.y = sampleTrap.ball.y + sampleTrap.ball.speedY :=
      rfl
    have hHe : (ballMovement sampleTrap).canvasHeight = 139 := rfl
    have hze : (ballMovement sampleTrap).ball.size = 10 := rfl
    simp only [hitsWall, ye, hHe, hze, hy, hv]
    norm_num
  · rw [wallCollision_ball_y, y2, hy]
  · rw [wallCollision_speedY_of_hit _ w2, v2, hv]
    norm_num

end Game

end SpacePong
